import Mathlib

/-!
Shallow Lean embedding of the nativescript-doctor Environment Capability
Probe and Validation Engine, translated from the TypeScript sources
(sys-info.ts, doctor.ts, android-tools-info.ts, index.ts), together with
theorems settling the frozen claims about it.

External collaborators (child-process, file-system, winreg, host-info
wrappers) are absent from the sources; where their behaviour decides a
definition it is modelled from the specification of their interface
boundary and marked `Modelled from the spec:` in the doc comment.

JavaScript conventions used throughout the embedding:
an `Option` value models a JS value that may be `null`/`undefined`
(both trigger the same re-computation behaviour in the cache, so they are
collapsed into `none`); JS string truthiness (empty string is falsy) is
modelled by the explicit helpers below; `path.join` is modelled with a
forward-slash separator.
-/

namespace NsDoctor

/-- JS truthiness of a nullable string: `null`/`undefined` and the empty
string are falsy. -/
def optStrTruthy : Option String → Bool
  | none => false
  | some s => s != ""

/-- JS truthiness of a nullable boolean: only `true` is truthy. -/
def optBoolTruthy : Option Bool → Bool
  | none => false
  | some b => b

/-- Character class `\w` of JS regexes: letters, digits and underscore. -/
def isWordChar (c : Char) : Bool := c.isAlphanum || c == '_'

/-- Character class `[\w-]` used by the version-suffix capture group. -/
def isWordOrHyphen (c : Char) : Bool := isWordChar c || c == '-'

/-- Case-insensitive prefix test on character lists (JS regex `i` flag). -/
def isPrefixOfCI : List Char → List Char → Bool
  | [], _ => true
  | _ :: _, [] => false
  | a :: as, b :: bs => (a.toLower == b.toLower) && isPrefixOfCI as bs

/-- First line of a character list (what a capture group `(.*)` matches,
since `.` does not match a newline). -/
def takeToEol (l : List Char) : String := String.mk (l.takeWhile (fun c => c != '\n'))

/-- First line of a string, as produced by `output.split("\n")[0]`. -/
def firstLine (s : String) : String := takeToEol s.toList

/-- Prefix test on character lists. -/
def isPrefixOfB : List Char → List Char → Bool
  | [], _ => true
  | _ :: _, [] => false
  | a :: as, b :: bs => a == b && isPrefixOfB as bs

/-- Bounded substring search: whether `pat` occurs contiguously in `hay`
(JS `indexOf(pat) !== -1` / a regex match of a literal). -/
def containsList : List Char → List Char → Bool
  | pat, [] => pat.isEmpty
  | pat, c :: t => isPrefixOfB pat (c :: t) || containsList pat t

/-- Whether string `s` contains `pat` as a substring. -/
def containsSubstr (s pat : String) : Bool := containsList pat.toList s.toList

/-- Model of `path.join` (forward-slash separator). -/
def pathJoin (a b : String) : String := a ++ "/" ++ b

/-- Split a character list at every occurrence of `sep`
(`String.prototype.split` with a one-character separator). -/
def splitOnChar (sep : Char) : List Char → List (List Char)
  | [] => [[]]
  | c :: t =>
    if c = sep then [] :: splitOnChar sep t
    else
      match splitOnChar sep t with
      | h :: r => (c :: h) :: r
      | [] => [[c]]

/-- Numeric value of a list of decimal digits. -/
def digitsToNat (l : List Char) : Nat :=
  l.foldl (fun n c => n * 10 + (c.toNat - 48)) 0

/-- ASCII lowering, modelling `toLocaleLowerCase` on the identifiers in
scope. -/
def jsToLower (s : String) : String := String.mk (s.toList.map Char.toLower)

/-- Model of `String.prototype.trim`. -/
def jsTrim (s : String) : String :=
  String.mk (((s.toList.dropWhile Char.isWhitespace).reverse.dropWhile
    Char.isWhitespace).reverse)

/-- Replace the first occurrence of `pat` (JS `String.prototype.replace`
with a string pattern) by `rep`. -/
def replaceFirstList (pat rep : List Char) : List Char → List Char
  | [] => []
  | c :: t =>
    if pat.isPrefixOf (c :: t) then rep ++ (c :: t).drop pat.length
    else c :: replaceFirstList pat rep t

/-- Join a list of strings with a separator (`Array.prototype.join`). -/
def joinListStr (sep : String) : List String → String
  | [] => ""
  | [x] => x
  | x :: y :: t => x ++ sep ++ joinListStr sep (y :: t)

/-! ### Leftmost-match scanners for the version regexes of the sources -/

/-- Attempt of `SysInfo.VERSION_REGEXP = (\d{1,})\.(\d{1,})\.*([\w-]{0,})`
anchored at the head of the list; returns `(match0, group1, group2, group3)`. -/
def versionGroupsAt (l : List Char) : Option (String × String × String × String) :=
  let d1 := l.takeWhile Char.isDigit
  let r1 := l.dropWhile Char.isDigit
  if d1.isEmpty then none else
  match r1 with
  | '.' :: r2 =>
    let d2 := r2.takeWhile Char.isDigit
    let r3 := r2.dropWhile Char.isDigit
    if d2.isEmpty then none else
    let dots := r3.takeWhile (fun c => c == '.')
    let r4 := r3.dropWhile (fun c => c == '.')
    let g3 := r4.takeWhile isWordOrHyphen
    some (String.mk (d1 ++ '.' :: d2 ++ dots ++ g3), String.mk d1, String.mk d2, String.mk g3)
  | _ => none

/-- Leftmost match of `SysInfo.VERSION_REGEXP` in a character list. -/
def versionGroupsFind : List Char → Option (String × String × String × String)
  | [] => none
  | c :: rest =>
    match versionGroupsAt (c :: rest) with
    | some m => some m
    | none => versionGroupsFind rest

/-- Translation of `SysInfo.getVersionFromString`: normalised
`major.minor.patch` with the suffix group defaulting to `0`. -/
def getVersionFromString (s : String) : Option String :=
  match versionGroupsFind s.toList with
  | some (_, g1, g2, g3) => some (g1 ++ "." ++ g2 ++ "." ++ (if g3 == "" then "0" else g3))
  | none => none

/-- The whole text (`match[0]`) of the leftmost `VERSION_REGEXP` match,
as used by `getCocoaPodsVersion`. -/
def versionRegexWhole (s : String) : Option String :=
  (versionGroupsFind s.toList).map (fun m => m.1)

/-- Attempt of `AndroidToolsInfo.VERSION_REGEX = ((\d+\.){2}\d+)` anchored at
the head of the list; the captured group is the whole dotted triple. -/
def versionTokenAt (l : List Char) : Option (List Char) :=
  let d1 := l.takeWhile Char.isDigit
  let r1 := l.dropWhile Char.isDigit
  if d1.isEmpty then none else
  match r1 with
  | '.' :: r2 =>
    let d2 := r2.takeWhile Char.isDigit
    let r3 := r2.dropWhile Char.isDigit
    if d2.isEmpty then none else
    match r3 with
    | '.' :: r4 =>
      let d3 := r4.takeWhile Char.isDigit
      if d3.isEmpty then none else some (d1 ++ '.' :: d2 ++ '.' :: d3)
    | _ => none
  | _ => none

/-- Leftmost `AndroidToolsInfo.VERSION_REGEX` match in a character list. -/
def versionTokenFind : List Char → Option (List Char)
  | [] => none
  | c :: rest =>
    match versionTokenAt (c :: rest) with
    | some tok => some tok
    | none => versionTokenFind rest

/-- Version token extracted from a directory name
(`dirName.match(VERSION_REGEX)` followed by taking group 1). -/
def extractVersionToken (s : String) : Option String :=
  (versionTokenFind s.toList).map String.mk

/-! ### Per-probe output parsers -/

/-- Fuel-bounded worker for `dottedTail`; every step consumes at least two
characters, so `l.length` is always enough fuel (the fuel only makes the
recursion structural). -/
def dottedTailFuel : Nat → List Char → List Char × List Char
  | 0, l => ([], l)
  | fuel + 1, l =>
    match l with
    | '.' :: r =>
      let d := r.takeWhile Char.isDigit
      if d.isEmpty then ([], l) else
        let rest := dottedTailFuel fuel (r.dropWhile Char.isDigit)
        ('.' :: (d ++ rest.1), rest.2)
    | _ => ([], l)

/-- Greedy tail `(\.\d+)*` of a dotted version capture; returns the consumed
characters and the remainder. -/
def dottedTail (l : List Char) : List Char × List Char :=
  dottedTailFuel l.length l

/-- Capture `((?:\d+\.)+(?:\d+))` anchored at the head: at least two dotted
digit runs. -/
def dottedCaptureAt (l : List Char) : Option String :=
  let d1 := l.takeWhile Char.isDigit
  if d1.isEmpty then none else
  let t := dottedTail (l.dropWhile Char.isDigit)
  if t.1.isEmpty then none else some (String.mk (d1 ++ t.1))

/-- Leftmost match of `SysInfo.JAVA_VERSION_REGEXP =
(?:openjdk|java) version \"((?:\d+\.)+(?:\d+))` with the `i` flag. -/
def javaVersionCapture : List Char → Option String
  | [] => none
  | c :: rest =>
    let here :=
      if isPrefixOfCI "openjdk version \"".toList (c :: rest) then
        dottedCaptureAt ((c :: rest).drop 17)
      else if isPrefixOfCI "java version \"".toList (c :: rest) then
        dottedCaptureAt ((c :: rest).drop 14)
      else none
    match here with
    | some v => some v
    | none => javaVersionCapture rest

/-- Translation of `SysInfo.JAVA_COMPILER_VERSION_REGEXP = ^javac (.*)` with
flags `im`: the rest of the first line starting (case-insensitively) with
`javac `. -/
def javacCapture (s : String) : Option String :=
  (splitOnChar '\n' s.toList).findSome? fun line =>
    if isPrefixOfCI "javac ".toList line then
      some (String.mk (line.drop 6))
    else none

/-- Translation of `SysInfo.GIT_VERSION_REGEXP = ^git version (.*)` (no `m`
flag, so anchored at the start of the whole output). -/
def gitCapture (s : String) : Option String :=
  if "git version ".toList.isPrefixOf s.toList then
    some (takeToEol (s.toList.drop 12))
  else none

/-- Leftmost case-insensitive occurrence of `marker` followed by a
rest-of-line capture (`GRADLE_VERSION_REGEXP = Gradle (.*)` with `i`). -/
def markerRestOfLineCI (marker : String) : List Char → Option String
  | [] => none
  | c :: rest =>
    if isPrefixOfCI marker.toList (c :: rest) then
      some (takeToEol ((c :: rest).drop marker.length))
    else markerRestOfLineCI marker rest

/-- Attempt of `monoVerRegExp = version (\d+[.]\d+[.]\d+) ` anchored at the
head (case-sensitive, trailing space required). -/
def monoCaptureAt (l : List Char) : Option String :=
  if "version ".toList.isPrefixOf l then
    let r := l.drop 8
    let d1 := r.takeWhile Char.isDigit
    let r1 := r.dropWhile Char.isDigit
    if d1.isEmpty then none else
    match r1 with
    | '.' :: r2 =>
      let d2 := r2.takeWhile Char.isDigit
      let r3 := r2.dropWhile Char.isDigit
      if d2.isEmpty then none else
      match r3 with
      | '.' :: r4 =>
        let d3 := r4.takeWhile Char.isDigit
        let r5 := r4.dropWhile Char.isDigit
        if d3.isEmpty then none else
        match r5 with
        | ' ' :: _ => some (String.mk (d1 ++ '.' :: d2 ++ '.' :: d3))
        | _ => none
      | _ => none
    | _ => none
  else none

/-- Leftmost match of the mono version regex.  The `g` flag statefulness of
the shared RegExp instance (its `lastIndex`) is not modelled; within a single
probe execution the first match is what the source observes. -/
def monoVersionCapture : List Char → Option String
  | [] => none
  | c :: rest =>
    match monoCaptureAt (c :: rest) with
    | some v => some v
    | none => monoVersionCapture rest

/-! ### A small explicit semantic-version routine

The sources delegate to the node-semver package.  Only plain numeric
`major.minor.patch` tokens reach it on the paths the claims touch (the
probe regexes produce digit-and-dot tokens); prerelease and build syntax is
not modelled.  node-semver rejects components with leading zeros, which
`semverParse` mirrors. -/

/-- A parsed dotted numeric version. -/
abbrev VersionTriple := Nat × Nat × Nat

/-- One numeric identifier of a semver token: digits only, no leading zero
in a multi-digit run. -/
def parseNumericIdent (l : List Char) : Option Nat :=
  if l.isEmpty then none
  else if !(l.all Char.isDigit) then none
  else
    match l with
    | '0' :: _ :: _ => none
    | _ => some (digitsToNat l)

/-- Parse a strict `major.minor.patch` version. -/
def semverParse (s : String) : Option VersionTriple :=
  match splitOnChar '.' s.toList with
  | [a, b, c] =>
    match parseNumericIdent a, parseNumericIdent b, parseNumericIdent c with
    | some x, some y, some z => some (x, y, z)
    | _, _, _ => none
  | _ => none

/-- Model of `semver.valid` for the tokens in scope. -/
def semverValid (s : String) : Bool := (semverParse s).isSome

/-- Strict lexicographic comparison of version triples. -/
def versionLtB : VersionTriple → VersionTriple → Bool
  | (a, b, c), (d, e, f) => a < d || (a == d && (b < e || (b == e && c < f)))

/-- Non-strict comparison of version triples. -/
def versionLeB (x y : VersionTriple) : Bool := versionLtB x y || x == y

/-! ### Host environment and external collaborators -/

/-- Host family, an explicit variant value (the sources query
`hostInfo.isWindows / isDarwin / isLinux`). -/
inductive HostOs where
  | windows
  | darwin
  | linux
deriving DecidableEq

/-- Errors a JS computation can abort with: a rejected child-process
promise, an invalid argument handed to the semver comparators, or a
TypeError such as `path.join(undefined, ...)` or a property access on
`null`. -/
inductive JsErr where
  | execFailure
  | invalidVersionArg
  | typeError
deriving DecidableEq

/-- Deterministic outcome of one external command in the environment under
which the engine runs: a spawn failure, or termination with an exit code
and captured standard streams. -/
inductive CmdResult where
  | err
  | res (exitCode : Nat) (stdout stderr : String)
deriving DecidableEq

/-- Result object of the process runner. -/
structure IProcessInfo where
  exitCode : Nat
  stdout : String
  stderr : String
deriving DecidableEq

/-- One deterministic snapshot of the machine the probes inspect: the
outcome of every external command, the filesystem, the registry and the
relevant environment variables. -/
structure Env where
  host : HostOs
  isWindows64 : Bool
  shellStr : String
  procArch : String
  nodeVersionStr : String
  dotNetVersion : Option String
  javaVersionCmd : CmdResult
  javacCmd : CmdResult
  xcodebuildCmd : CmdResult
  npmCmd : CmdResult
  nodeGypCmd : CmdResult
  gemWhichXcodeprojCmd : CmdResult
  podVersionCmd : CmdResult
  unameCmd : CmdResult
  adbVersionCmd : CmdResult
  androidHCmd : CmdResult
  monoCmd : CmdResult
  gitCmd : CmdResult
  gradleCmd : CmdResult
  tnsCmd : CmdResult
  xcprojCmd : CmdResult
  podInstallCmd : CmdResult
  extractZipOk : Bool
  podsWorkspaceExists : Bool
  fsExists : String → Bool
  readDir : String → List String
  androidHome : Option String
  javaHome : Option String
  commonProgramFiles : Option String
  commonProgramFilesX86 : Option String
  regProductName : Option String
  regCurrentVersion : Option String
  regCurrentBuild : Option String

/-- Modelled from the spec: the Process Runner
`run(command, args, waitCondition, options)` resolves with
`{exitCode, stdout, stderr}` and by default rejects/fails on nonzero exit
unless an ignore-error option is set; a spawn error always rejects.  The
source comment at `isAndroidInstalled` (exit code 1 must be ignored
explicitly) corroborates the default-rejecting behaviour. -/
def spawnFromEvent (c : CmdResult) (ignoreError : Bool) : Except JsErr IProcessInfo :=
  match c with
  | .err => .error .execFailure
  | .res code out serr =>
    if ignoreError then .ok ⟨code, out, serr⟩
    else if code == 0 then .ok ⟨code, out, serr⟩
    else .error .execFailure

/-- Modelled from the spec: `childProcess.exec` rejects on nonzero exit and
on spawn failure. -/
def childProcessExec (c : CmdResult) : Except JsErr IProcessInfo :=
  spawnFromEvent c false

/-- Translation of the private `SysInfo.exec`: absorb any rejection into
`null`. -/
def sysInfoExec (c : CmdResult) : Option IProcessInfo :=
  match childProcessExec c with
  | .ok p => some p
  | .error _ => none

/-- Translation of the private `SysInfo.execCommand`:
`output && output.stdout`. -/
def execCommand (c : CmdResult) : Option String :=
  (sysInfoExec c).map IProcessInfo.stdout

/-! ### Version Probe Cache state -/

/-- Result of `getXcprojInfo`. -/
structure XcprojInfo where
  shouldUseXcproj : Bool
  xcprojAvailable : Option Bool
deriving DecidableEq

/-- The environment snapshot `ISysInfoData` assembled by `getSysInfo`
(a plain JS object created with `Object.create(null)` and filled property
by property; `cocoaPodsVer` is the spelling `getSysInfo` assigns at
sys-info.ts line 234). -/
structure SysInfoData where
  platform : String
  shell : String
  os : Option String
  procArch : String
  nodeVer : Option String
  npmVer : Option String
  nodeGypVer : Option String
  dotNetVer : Option String
  javaVer : Option String
  javacVersion : Option String
  xcodeVer : Option String
  xcodeprojGemLocation : Option String
  itunesInstalled : Option Bool
  cocoaPodsVer : Option String
  adbVer : Option String
  androidInstalled : Option Bool
  monoVer : Option String
  gitVer : Option String
  gradleVer : Option String
  isCocoaPodsWorkingCorrectly : Option Bool
  nativeScriptCliVersion : Option String
  isCocoaPodsUpdateRequired : Option Bool
deriving DecidableEq

/-- doctor.ts reads `sysInfoData.cocoapodVer` (index.ts lines 103, 111 and
121) — a property of that exact spelling, which `getSysInfo` never assigns
(it assigns `cocoaPodsVer`, sys-info.ts line 234, and no other code writes
to the snapshot object).  In JS, reading a never-assigned property of the
snapshot yields `undefined` on every snapshot. -/
def SysInfoData.cocoapodVer (_ : SysInfoData) : Option String := none

/-- The mutable instance fields of `SysInfo`: one cache slot per probe plus
the `shouldCache` flag.  `none` models both `undefined` (slot never
assigned) and an assigned `null` result, because the cache test
`cachedValue === undefined || cachedValue === null` treats them alike. -/
structure SysInfoState where
  javaVerCache : Option String
  javaCompilerVerCache : Option String
  xCodeVerCache : Option String
  npmVerCache : Option String
  nodeGypVerCache : Option String
  xCodeprojGemLocationCache : Option String
  iTunesInstalledCache : Option Bool
  cocoaPodsVerCache : Option String
  osCache : Option String
  adbVerCache : Option String
  androidInstalledCache : Option Bool
  monoVerCache : Option String
  gitVerCache : Option String
  gradleVerCache : Option String
  sysInfoCache : Option SysInfoData
  isCocoaPodsWorkingCorrectlyCache : Option Bool
  nativeScriptCliVersionCache : Option String
  xcprojInfoCache : Option XcprojInfo
  isCocoaPodsUpdateRequiredCache : Option Bool
  shouldCache : Bool
deriving DecidableEq

/-- The state of a fresh `SysInfo` instance: nothing cached, caching on. -/
def initialSysInfoState : SysInfoState where
  javaVerCache := none
  javaCompilerVerCache := none
  xCodeVerCache := none
  npmVerCache := none
  nodeGypVerCache := none
  xCodeprojGemLocationCache := none
  iTunesInstalledCache := none
  cocoaPodsVerCache := none
  osCache := none
  adbVerCache := none
  androidInstalledCache := none
  monoVerCache := none
  gitVerCache := none
  gradleVerCache := none
  sysInfoCache := none
  isCocoaPodsWorkingCorrectlyCache := none
  nativeScriptCliVersionCache := none
  xcprojInfoCache := none
  isCocoaPodsUpdateRequiredCache := none
  shouldCache := true

/-- Translation of `SysInfo.setShouldCacheSysInfo`. -/
def setShouldCacheSysInfo (st : SysInfoState) (shouldCache : Bool) : SysInfoState :=
  { st with shouldCache := shouldCache }

/-- Identity of a detection strategy, used to record which strategies
actually executed (the explicit enumerated probe keys the spec asks for in
place of the reflection-derived slot names). -/
inductive ProbeId where
  | java
  | javac
  | xcode
  | npm
  | nodeGyp
  | xcodeprojGem
  | itunes
  | cocoapods
  | os
  | adb
  | androidCheck
  | mono
  | git
  | gradle
  | podsFunctional
  | nsCli
  | xcprojData
  | podsUpdate
  | sysInfoAgg
deriving DecidableEq

deriving instance DecidableEq for Except

/-- Outcome of one accessor invocation: its (possibly rejected) value, the
instance state after the call, and the list of detection strategies that
actually ran during the call. -/
structure PR (α : Type) where
  out : Except JsErr α
  st : SysInfoState
  log : List ProbeId
deriving DecidableEq

/-- Sequencing of accessor calls (`await` chains): a rejection propagates,
state and strategy logs accumulate. -/
def PR.bind {α β : Type} (r : PR α) (f : α → SysInfoState → PR β) : PR β :=
  match r.out with
  | .error e => ⟨.error e, r.st, r.log⟩
  | .ok v =>
    let s2 := f v r.st
    ⟨s2.out, s2.st, r.log ++ s2.log⟩

/-- Translation of the private `SysInfo.getValueForProperty`.  With caching
on, a slot holding `undefined`/`null` (both `none` here) triggers the
detection strategy and the result — present or absent — is assigned back to
the slot; a slot holding a proper value is returned directly.  With caching
off the strategy always runs and nothing is stored.  A rejection inside the
strategy propagates before the assignment. -/
def getValueForProperty {α : Type} (env : Env) (st : SysInfoState)
    (read : SysInfoState → Option α) (write : SysInfoState → Option α → SysInfoState)
    (pid : ProbeId) (strategy : Env → SysInfoState → PR (Option α)) : PR (Option α) :=
  if st.shouldCache then
    match read st with
    | some v => ⟨.ok (some v), st, []⟩
    | none =>
      let r := strategy env st
      match r.out with
      | .ok v => ⟨.ok v, write r.st v, pid :: r.log⟩
      | .error e => ⟨.error e, r.st, pid :: r.log⟩
  else
    let r := strategy env st
    ⟨r.out, r.st, pid :: r.log⟩

/-- A detection strategy that only inspects the environment: it touches no
cache slot and calls no other accessor. -/
def pureStrategy {α : Type} (f : Env → Except JsErr (Option α)) :
    Env → SysInfoState → PR (Option α) :=
  fun e s => ⟨f e, s, []⟩

/-! ### Detection strategies, translated accessor by accessor from
sys-info.ts.  Every `try/catch` of the source appears as a match on the
modelled rejection that returns `none` (the source returns `null`). -/

/-- Strategy of `getJavaVersion`: spawn `java -version`, parse its stderr;
any rejection is caught and becomes `null`. -/
def javaVersionValue (env : Env) : Option String :=
  match spawnFromEvent env.javaVersionCmd false with
  | .ok p => javaVersionCapture p.stderr.toList
  | .error _ => none

/-- Strategy of `getJavaCompilerVersion`: run `javac -version` (resolved
via `JAVA_HOME` when set — the command outcome subsumes the chosen path),
index the regex match; both a rejected exec and the TypeError from indexing
a null match happen inside the try and become `null`. -/
def javacVersionValue (env : Env) : Option String :=
  match childProcessExec env.javacCmd with
  | .ok p => javacCapture p.stderr
  | .error _ => none

/-- Strategy of `getXcodeVersion`: only on Darwin; run
`xcodebuild -version`, require a match of `Xcode (.*)` on the truthy
output, then normalise the whole output. -/
def xcodeVersionValue (env : Env) : Option String :=
  if env.host == .darwin then
    match execCommand env.xcodebuildCmd with
    | some out => if out != "" && containsSubstr out "Xcode " then getVersionFromString out else none
    | none => none
  else none

/-- Value of the uncached public `getNodeVersion`:
`getVersionFromString(process.version)`. -/
def nodeVersionValue (env : Env) : Option String :=
  getVersionFromString env.nodeVersionStr

/-- Strategy of `getNpmVersion`: first line of truthy `npm -v` output. -/
def npmVersionValue (env : Env) : Option String :=
  match execCommand env.npmCmd with
  | some out => if out != "" then some (firstLine out) else none
  | none => none

/-- Strategy of `getNodeGypVersion`. -/
def nodeGypVersionValue (env : Env) : Option String :=
  match execCommand env.nodeGypCmd with
  | some out => if out != "" then getVersionFromString out else none
  | none => none

/-- Strategy of `getXcodeprojGemLocation`: trimmed truthy output of
`gem which xcodeproj`. -/
def xcodeprojGemLocationValue (env : Env) : Option String :=
  match execCommand env.gemWhichXcodeprojCmd with
  | some out => if out != "" then some (jsTrim out) else none
  | none => none

/-- Strategy of `isITunesInstalled`: false on Linux; on Windows the Apple
support directories under the common-program-files variable (a missing
variable makes `path.join(undefined, ...)` throw a TypeError, which nothing
catches); fixed framework paths on Darwin. -/
def itunesValue (env : Env) : Except JsErr (Option Bool) :=
  match env.host with
  | .linux => .ok (some false)
  | .windows =>
    match (if env.isWindows64 then env.commonProgramFilesX86 else env.commonProgramFiles) with
    | none => .error .typeError
    | some cpf =>
      .ok (some (env.fsExists (pathJoin cpf "Apple/Apple Application Support")
        && env.fsExists (pathJoin cpf "Apple/Mobile Device Support")))
  | .darwin =>
    .ok (some (env.fsExists "/System/Library/Frameworks/CoreFoundation.framework/CoreFoundation"
      && env.fsExists "/System/Library/PrivateFrameworks/MobileDevice.framework/MobileDevice"))

/-- Strategy of `getCocoaPodsVersion`: only on Darwin; the trimmed whole
match of the version regex in the truthy `pod --version` output. -/
def cocoaPodsVersionValue (env : Env) : Option String :=
  if env.host == .darwin then
    match execCommand env.podVersionCmd with
    | some out =>
      if out != "" then
        match versionRegexWhole out with
        | some m0 => if m0 != "" then some (jsTrim m0) else none
        | none => none
      else none
    | none => none
  else none

/-- Modelled from the spec: the Registry Reader
`readValue(name, hive, keyPath)` returns a string or absence; `winVer`
interpolates the three values into a template literal (an absent value
stringifies). -/
def winVerValue (env : Env) : String :=
  (env.regProductName.getD "null") ++ " " ++ (env.regCurrentVersion.getD "null")
    ++ "." ++ (env.regCurrentBuild.getD "null")

/-- Strategy of `getOs`: registry-derived string on Windows, `uname -a`
output otherwise. -/
def osValue (env : Env) : Option String :=
  if env.host == .windows then some (winVerValue env) else execCommand env.unameCmd

/-- Strategy of `getAdbVersion`. -/
def adbVersionValue (env : Env) : Option String :=
  match execCommand env.adbVersionCmd with
  | some out => if out != "" then getVersionFromString out else none
  | none => none

/-- Strategy of `isAndroidInstalled`: spawn `android -h` with the
ignore-error option (exit code 1 is expected on some hosts) and look for
`android` in the stdout; a spawn error is caught and becomes `null`. -/
def androidInstalledValue (env : Env) : Option Bool :=
  match spawnFromEvent env.androidHCmd true with
  | .ok p => some (containsSubstr p.stdout "android")
  | .error _ => none

/-- Strategy of `getMonoVersion`. -/
def monoVersionValue (env : Env) : Option String :=
  match execCommand env.monoCmd with
  | some out => monoVersionCapture out.toList
  | none => none

/-- Strategy of `getGitVersion`. -/
def gitVersionValue (env : Env) : Option String :=
  match execCommand env.gitCmd with
  | some out => gitCapture out
  | none => none

/-- Strategy of `getGradleVersion`. -/
def gradleVersionValue (env : Env) : Option String :=
  match execCommand env.gradleCmd with
  | some out => markerRestOfLineCI "Gradle " out.toList
  | none => none

/-- Strategy of `isCocoaPodsWorkingCorrectly` (the functional
dependency-manager check): on Darwin extract the bundled fixture archive
into a temporary directory — the extraction happens before the `try`, so
its rejection propagates — then spawn `pod install` in it; a rejection of
the spawn (spawn error, or nonzero exit under the default-rejecting
runner) is caught and becomes `null`; on a resolved run with exit code 0
the result is whether the expected `cocoapods.xcworkspace` artifact exists
(the abstract `podsWorkspaceExists` field, since the temporary directory
path is fresh).  Off Darwin the strategy returns `false`. -/
def podsFunctionalValue (env : Env) : Except JsErr (Option Bool) :=
  if env.host == .darwin then
    if env.extractZipOk then
      .ok (match spawnFromEvent env.podInstallCmd false with
        | .error _ => none
        | .ok p => if p.exitCode != 0 then some false else some env.podsWorkspaceExists)
    else .error .execFailure
  else .ok (some false)

/-- Strategy of `getNativeScriptCliVersion`:
`output ? output.trim() : output`. -/
def nsCliVersionValue (env : Env) : Option String :=
  match execCommand env.tnsCmd with
  | some out => if out != "" then some (jsTrim out) else some out
  | none => none

/-! ### Accessors: the memoization wrapper instantiated slot by slot -/

/-- Translation of `SysInfo.getJavaVersion`. -/
def getJavaVersion (env : Env) (st : SysInfoState) : PR (Option String) :=
  getValueForProperty env st (fun s => s.javaVerCache)
    (fun s v => { s with javaVerCache := v }) .java
    (pureStrategy fun e => .ok (javaVersionValue e))

/-- Translation of `SysInfo.getJavaCompilerVersion`. -/
def getJavaCompilerVersion (env : Env) (st : SysInfoState) : PR (Option String) :=
  getValueForProperty env st (fun s => s.javaCompilerVerCache)
    (fun s v => { s with javaCompilerVerCache := v }) .javac
    (pureStrategy fun e => .ok (javacVersionValue e))

/-- Translation of `SysInfo.getXcodeVersion`. -/
def getXcodeVersion (env : Env) (st : SysInfoState) : PR (Option String) :=
  getValueForProperty env st (fun s => s.xCodeVerCache)
    (fun s v => { s with xCodeVerCache := v }) .xcode
    (pureStrategy fun e => .ok (xcodeVersionValue e))

/-- Translation of `SysInfo.getNpmVersion`. -/
def getNpmVersion (env : Env) (st : SysInfoState) : PR (Option String) :=
  getValueForProperty env st (fun s => s.npmVerCache)
    (fun s v => { s with npmVerCache := v }) .npm
    (pureStrategy fun e => .ok (npmVersionValue e))

/-- Translation of `SysInfo.getNodeGypVersion`. -/
def getNodeGypVersion (env : Env) (st : SysInfoState) : PR (Option String) :=
  getValueForProperty env st (fun s => s.nodeGypVerCache)
    (fun s v => { s with nodeGypVerCache := v }) .nodeGyp
    (pureStrategy fun e => .ok (nodeGypVersionValue e))

/-- Translation of `SysInfo.getXcodeprojGemLocation`. -/
def getXcodeprojGemLocation (env : Env) (st : SysInfoState) : PR (Option String) :=
  getValueForProperty env st (fun s => s.xCodeprojGemLocationCache)
    (fun s v => { s with xCodeprojGemLocationCache := v }) .xcodeprojGem
    (pureStrategy fun e => .ok (xcodeprojGemLocationValue e))

/-- Translation of `SysInfo.isITunesInstalled`. -/
def isITunesInstalled (env : Env) (st : SysInfoState) : PR (Option Bool) :=
  getValueForProperty env st (fun s => s.iTunesInstalledCache)
    (fun s v => { s with iTunesInstalledCache := v }) .itunes
    (pureStrategy itunesValue)

/-- Translation of `SysInfo.getCocoaPodsVersion`. -/
def getCocoaPodsVersion (env : Env) (st : SysInfoState) : PR (Option String) :=
  getValueForProperty env st (fun s => s.cocoaPodsVerCache)
    (fun s v => { s with cocoaPodsVerCache := v }) .cocoapods
    (pureStrategy fun e => .ok (cocoaPodsVersionValue e))

/-- Translation of `SysInfo.getOs`. -/
def getOs (env : Env) (st : SysInfoState) : PR (Option String) :=
  getValueForProperty env st (fun s => s.osCache)
    (fun s v => { s with osCache := v }) .os
    (pureStrategy fun e => .ok (osValue e))

/-- Translation of `SysInfo.getAdbVersion`. -/
def getAdbVersion (env : Env) (st : SysInfoState) : PR (Option String) :=
  getValueForProperty env st (fun s => s.adbVerCache)
    (fun s v => { s with adbVerCache := v }) .adb
    (pureStrategy fun e => .ok (adbVersionValue e))

/-- Translation of `SysInfo.isAndroidInstalled`. -/
def isAndroidInstalled (env : Env) (st : SysInfoState) : PR (Option Bool) :=
  getValueForProperty env st (fun s => s.androidInstalledCache)
    (fun s v => { s with androidInstalledCache := v }) .androidCheck
    (pureStrategy fun e => .ok (androidInstalledValue e))

/-- Translation of `SysInfo.getMonoVersion`. -/
def getMonoVersion (env : Env) (st : SysInfoState) : PR (Option String) :=
  getValueForProperty env st (fun s => s.monoVerCache)
    (fun s v => { s with monoVerCache := v }) .mono
    (pureStrategy fun e => .ok (monoVersionValue e))

/-- Translation of `SysInfo.getGitVersion`. -/
def getGitVersion (env : Env) (st : SysInfoState) : PR (Option String) :=
  getValueForProperty env st (fun s => s.gitVerCache)
    (fun s v => { s with gitVerCache := v }) .git
    (pureStrategy fun e => .ok (gitVersionValue e))

/-- Translation of `SysInfo.getGradleVersion`. -/
def getGradleVersion (env : Env) (st : SysInfoState) : PR (Option String) :=
  getValueForProperty env st (fun s => s.gradleVerCache)
    (fun s v => { s with gradleVerCache := v }) .gradle
    (pureStrategy fun e => .ok (gradleVersionValue e))

/-- Translation of `SysInfo.isCocoaPodsWorkingCorrectly`. -/
def isCocoaPodsWorkingCorrectly (env : Env) (st : SysInfoState) : PR (Option Bool) :=
  getValueForProperty env st (fun s => s.isCocoaPodsWorkingCorrectlyCache)
    (fun s v => { s with isCocoaPodsWorkingCorrectlyCache := v }) .podsFunctional
    (pureStrategy podsFunctionalValue)

/-- Translation of `SysInfo.getNativeScriptCliVersion`. -/
def getNativeScriptCliVersion (env : Env) (st : SysInfoState) : PR (Option String) :=
  getValueForProperty env st (fun s => s.nativeScriptCliVersionCache)
    (fun s v => { s with nativeScriptCliVersionCache := v }) .nsCli
    (pureStrategy fun e => .ok (nsCliVersionValue e))

/-- Model of `semver.lt(a, b)`: throws when either argument is not a valid
version. -/
def semverLtE (a b : String) : Except JsErr Bool :=
  match semverParse a, semverParse b with
  | some x, some y => .ok (versionLtB x y)
  | _, _ => .error .invalidVersionArg

/-- Model of `semver.gte(a, b)` on a possibly `null`/`undefined` first
argument: throws on an absent or invalid argument. -/
def semverGteOptE (a : Option String) (b : String) : Except JsErr Bool :=
  match a with
  | none => .error .invalidVersionArg
  | some s =>
    match semverParse s, semverParse b with
    | some x, some y => .ok (!(versionLtB x y))
    | _, _ => .error .invalidVersionArg

/-- Strategy of `getXcprojInfo`: read the CocoaPods and Xcode versions
through their accessors, then evaluate
`cocoaPodsVersion && !!(semver.lt(cocoaPodsVersion, "1.0.0") &&
semver.gte(xcodeVersion, "7.3.0"))` — the semver calls throw on an absent
or unparsable argument and nothing catches them here — and, only when the
shim is required, probe `xcproj --version` through the absorbing `exec`. -/
def xcprojInfoStrategy (env : Env) (st : SysInfoState) : PR (Option XcprojInfo) :=
  (getCocoaPodsVersion env st).bind fun cpv st1 =>
  (getXcodeVersion env st1).bind fun xv st2 =>
  match (if optStrTruthy cpv then
          match semverLtE (cpv.getD "") "1.0.0" with
          | .error e => .error e
          | .ok b => if b then semverGteOptE xv "7.3.0" else .ok false
        else .ok false : Except JsErr Bool) with
  | .error e => ⟨.error e, st2, []⟩
  | .ok shouldUse =>
    ⟨.ok (some ⟨shouldUse, if shouldUse then some ((sysInfoExec env.xcprojCmd).isSome) else none⟩),
      st2, []⟩

/-- Translation of `SysInfo.getXcprojInfo`. -/
def getXcprojInfo (env : Env) (st : SysInfoState) : PR (Option XcprojInfo) :=
  getValueForProperty env st (fun s => s.xcprojInfoCache)
    (fun s v => { s with xcprojInfoCache := v }) .xcprojData
    xcprojInfoStrategy

/-- Strategy of `isCocoaPodsUpdateRequired`: true exactly when the shim is
required but unavailable.  A `null` xcproj record would make the property
access throw; the strategy never produces one. -/
def podsUpdateStrategy (env : Env) (st : SysInfoState) : PR (Option Bool) :=
  (getXcprojInfo env st).bind fun info st1 =>
  match info with
  | none => ⟨.error .typeError, st1, []⟩
  | some i => ⟨.ok (some (i.shouldUseXcproj && !(i.xcprojAvailable.getD false))), st1, []⟩

/-- Translation of `SysInfo.isCocoaPodsUpdateRequired`. -/
def isCocoaPodsUpdateRequired (env : Env) (st : SysInfoState) : PR (Option Bool) :=
  getValueForProperty env st (fun s => s.isCocoaPodsUpdateRequiredCache)
    (fun s v => { s with isCocoaPodsUpdateRequiredCache := v }) .podsUpdate
    podsUpdateStrategy

/-- The host identifier `platform()` returns. -/
def hostPlatformString (env : Env) : String :=
  match env.host with
  | .windows => "win32"
  | .darwin => "darwin"
  | .linux => "linux"

/-- The first, purely sequential part of the `getSysInfo` strategy: every
field of the snapshot up to `gradleVer`, in source order. -/
def sysInfoFirstPart (env : Env) (st : SysInfoState) : PR SysInfoData :=
  (getOs env st).bind fun os st1 =>
  (getNpmVersion env st1).bind fun npm st2 =>
  (getNodeGypVersion env st2).bind fun ng st3 =>
  (getJavaVersion env st3).bind fun jv st4 =>
  (getJavaCompilerVersion env st4).bind fun jcv st5 =>
  (getXcodeVersion env st5).bind fun xv st6 =>
  (getXcodeprojGemLocation env st6).bind fun xg st7 =>
  (isITunesInstalled env st7).bind fun it st8 =>
  (getCocoaPodsVersion env st8).bind fun cpv st9 =>
  (getAdbVersion env st9).bind fun adb st10 =>
  (isAndroidInstalled env st10).bind fun ai st11 =>
  (getMonoVersion env st11).bind fun mv st12 =>
  (getGitVersion env st12).bind fun gv st13 =>
  (getGradleVersion env st13).bind fun grv st14 =>
  ⟨.ok { platform := hostPlatformString env
         shell := env.shellStr
         os := os
         procArch := env.procArch
         nodeVer := nodeVersionValue env
         npmVer := npm
         nodeGypVer := ng
         dotNetVer := env.dotNetVersion
         javaVer := jv
         javacVersion := jcv
         xcodeVer := xv
         xcodeprojGemLocation := xg
         itunesInstalled := it
         cocoaPodsVer := cpv
         adbVer := adb
         androidInstalled := ai
         monoVer := mv
         gitVer := gv
         gradleVer := grv
         isCocoaPodsWorkingCorrectly := none
         nativeScriptCliVersion := none
         isCocoaPodsUpdateRequired := none }, st14, []⟩

/-- Strategy of `getSysInfo`: the sequential snapshot construction of
sys-info.ts lines 215-244 (`dotNetVersion` is the host-info collaborator
value, `nodeVer` the uncached node version). -/
def sysInfoStrategy (env : Env) (st : SysInfoState) : PR (Option SysInfoData) :=
  (sysInfoFirstPart env st).bind fun pre st1 =>
  (isCocoaPodsWorkingCorrectly env st1).bind fun pods st2 =>
  (getNativeScriptCliVersion env st2).bind fun cli st3 =>
  (isCocoaPodsUpdateRequired env st3).bind fun upd st4 =>
  ⟨.ok (some { pre with
      isCocoaPodsWorkingCorrectly := pods
      nativeScriptCliVersion := cli
      isCocoaPodsUpdateRequired := upd }), st4, []⟩

/-- Translation of `SysInfo.getSysInfo`: the snapshot itself goes through
the same memoization wrapper. -/
def getSysInfo (env : Env) (st : SysInfoState) : PR (Option SysInfoData) :=
  getValueForProperty env st (fun s => s.sysInfoCache)
    (fun s v => { s with sysInfoCache := v }) .sysInfoAgg
    sysInfoStrategy

/-! ### Platform Build Readiness Evaluator (doctor.ts)

Warnings are identified by the check that produced them; each constructor
documents the `warning` message of the source record it stands for. -/

/-- Identity of one diagnostic warning record. -/
inductive WarningKind where
  /-- WARNING: adb from the Android SDK is not installed or is not
  configured properly. -/
  | adb
  /-- WARNING: The Android SDK is not installed or is not configured
  properly. -/
  | androidSdk
  /-- WARNING: Xcode is not installed or is not configured properly. -/
  | xcode
  /-- WARNING: xcodeproj gem is not installed or is not configured
  properly. -/
  | xcodeprojGem
  /-- WARNING: CocoaPods is not installed or is not configured properly. -/
  | cocoaPods
  /-- WARNING: There was a problem with CocoaPods -/
  | cocoaPodsNotWorking
  /-- WARNING: Your current CocoaPods version is earlier than 0.38.2. -/
  | cocoaPodsOld
  /-- WARNING: Mono 3.12 or later is not installed or not configured
  properly. -/
  | mono
  /-- NOTE: You can develop for iOS only on Mac OS X systems. -/
  | iosNote
  /-- WARNING: iTunes is not installed. -/
  | itunes
  /-- WARNING: The Java Development Kit (JDK) is not installed or is not
  configured properly. -/
  | java
  /-- WARNING: Git is not installed or not configured properly. -/
  | git
  /-- The ANDROID_HOME environment variable is not set or it points to a
  non-existent directory. (android-tools-info.ts) -/
  | androidHomeNotSet
  /-- The ANDROID_HOME environment variable points to incorrect directory.
  (android-tools-info.ts) -/
  | androidHomeIncorrectDir
deriving DecidableEq

/-- Minimum supported CocoaPods version of the Doctor, `0.38.2`. -/
def MIN_SUPPORTED_POD_VERSION : VersionTriple := (0, 38, 2)

/-- The CocoaPods functional-check step of `getWarnings` (index.ts line
111): re-invokes the `isCocoaPodsWorkingCorrectly` accessor when
`sysInfoData.xcodeVer && sysInfoData.cocoapodVer` is truthy.  The second
conjunct reads the never-assigned `cocoapodVer` property, so the guard is
always falsy and the re-invocation branch is dead. -/
def podsCheckPart (env : Env) (st : SysInfoState) (d : SysInfoData) : PR (List WarningKind) :=
  if optStrTruthy d.xcodeVer && optStrTruthy d.cocoapodVer then
    (isCocoaPodsWorkingCorrectly env st).bind fun v st2 =>
      ⟨.ok (if optBoolTruthy v then [] else [WarningKind.cocoaPodsNotWorking]), st2, []⟩
  else ⟨.ok [], st, []⟩

/-- The CocoaPods minimum-version condition of `getWarnings` (index.ts
line 121):
`cocoapodVer && semver.valid(cocoapodVer) && semver.lt(cocoapodVer, MIN)`
(the validity guard keeps the comparison from throwing).  It reads the
never-assigned `cocoapodVer` property, so the condition is never true. -/
def podsOldCondition (d : SysInfoData) : Bool :=
  optStrTruthy d.cocoapodVer &&
    (match semverParse (d.cocoapodVer.getD "") with
     | some t => versionLtB t MIN_SUPPORTED_POD_VERSION
     | none => false)

/-- The Mono condition of `getWarnings`:
`!monoVer || semver.lt(monoVer, "3.12.0")` — with a truthy but unparsable
`monoVer` the unguarded `semver.lt` throws. -/
def monoCheckE (d : SysInfoData) : Except JsErr (List WarningKind) :=
  if optStrTruthy d.monoVer then
    match semverLtE (d.monoVer.getD "") "3.12.0" with
    | .error e => .error e
    | .ok b => .ok (if b then [WarningKind.mono] else [])
  else .ok [WarningKind.mono]

/-- The Darwin-only middle block of `getWarnings`: Xcode, xcodeproj gem,
CocoaPods presence, CocoaPods functional check, CocoaPods minimum version,
Mono — in source order.  The presence check (index.ts line 103) also reads
the never-assigned `cocoapodVer` property, so `!sysInfoData.cocoapodVer`
is always truthy and the CocoaPods warning is emitted on every Darwin
run. -/
def darwinBlock (env : Env) (st : SysInfoState) (d : SysInfoData) : PR (List WarningKind) :=
  let w3 := if optStrTruthy d.xcodeVer then [] else [WarningKind.xcode]
  let w4 := if optStrTruthy d.xcodeprojGemLocation then [] else [WarningKind.xcodeprojGem]
  let w5 := if optStrTruthy d.cocoapodVer then [] else [WarningKind.cocoaPods]
  (podsCheckPart env st d).bind fun w6 st2 =>
  let w7 := if podsOldCondition d then [WarningKind.cocoaPodsOld] else []
  match monoCheckE d with
  | .error e => ⟨.error e, st2, []⟩
  | .ok w8 => ⟨.ok (w3 ++ w4 ++ w5 ++ w6 ++ w7 ++ w8), st2, []⟩

/-- Translation of `Doctor.getWarnings`: build one snapshot through
`getSysInfo`, then run the fixed ordered sequence of checks against it. -/
def getWarnings (env : Env) (st : SysInfoState) : PR (List WarningKind) :=
  (getSysInfo env st).bind fun dOpt st1 =>
  match dOpt with
  | none => ⟨.error .typeError, st1, []⟩
  | some d =>
    let w1 := if optStrTruthy d.adbVer then [] else [WarningKind.adb]
    let w2 := if optBoolTruthy d.androidInstalled then [] else [WarningKind.androidSdk]
    ((if env.host == .darwin then darwinBlock env st1 d
      else ⟨.ok [WarningKind.iosNote], st1, []⟩) : PR (List WarningKind)).bind fun wMid st2 =>
    let w9 := if optBoolTruthy d.itunesInstalled then [] else [WarningKind.itunes]
    let w10 := if optStrTruthy d.javaVer then [] else [WarningKind.java]
    let w11 := if optStrTruthy d.gitVer then [] else [WarningKind.git]
    ⟨.ok (w1 ++ w2 ++ wMid ++ w9 ++ w10 ++ w11), st2, []⟩

/-- Modelled from the spec: the constants module is not under src; per the
readiness evaluator contract the supported platform identifiers are the
Android and iOS platform names (the assumption claim C10 states). -/
def ANDROID_PLATFORM_NAME : String := "Android"

/-- Modelled from the spec: the iOS platform name constant. -/
def IOS_PLATFORM_NAME : String := "iOS"

/-- Modelled from the spec: `Constants.SUPPORTED_PLATFORMS`. -/
def SUPPORTED_PLATFORMS : List String := [ANDROID_PLATFORM_NAME, IOS_PLATFORM_NAME]

/-- Translation of `Doctor.isPlatformSupported`: the reduce-based
case-insensitive membership test (`toLocaleLowerCase` modelled as ASCII
lowering). -/
def isPlatformSupported (platform : String) : Bool :=
  SUPPORTED_PLATFORMS.foldl
    (fun prevValue currentValue =>
      if !prevValue then jsToLower currentValue == jsToLower platform else prevValue)
    false

/-- Translation of `Doctor.validatePlatform`: throws on an empty platform
and on an unsupported platform, the latter with a message enumerating the
supported platforms. -/
def validatePlatform (platform : String) : Except String Unit :=
  if platform == "" then .error "You must specify a platform."
  else if !(isPlatformSupported platform) then
    .error ("Platform " ++ platform ++ " is not supported. The supported platforms are: "
      ++ joinListStr ", " SUPPORTED_PLATFORMS)
  else .ok ()

/-- Translation of `Doctor.canExecuteLocalBuild`.  The two local-build
requirement checks are collaborators outside the probe engine (their
sources are not under src); their boolean verdicts are passed in. -/
def canExecuteLocalBuild (androidRequirements iosRequirements : Bool) (platform : String) :
    Except String Bool :=
  match validatePlatform platform with
  | .error e => .error e
  | .ok _ =>
    if jsToLower platform == jsToLower ANDROID_PLATFORM_NAME then .ok androidRequirements
    else if jsToLower platform == jsToLower IOS_PLATFORM_NAME then .ok iosRequirements
    else .ok false

/-! ### SDK Capability Resolver (android-tools-info.ts) -/

/-- `AndroidToolsInfo.SUPPORTED_TARGETS`. -/
def SUPPORTED_TARGETS : List String :=
  ["android-17", "android-18", "android-19", "android-21",
   "android-22", "android-23", "android-24", "android-25"]

/-- `AndroidToolsInfo.MIN_REQUIRED_COMPILE_TARGET`. -/
def MIN_REQUIRED_COMPILE_TARGET : Nat := 22

/-- Lexicographic comparison of character lists by code point, the default
`Array.prototype.sort()` string comparison. -/
def strLeB : List Char → List Char → Bool
  | [], _ => true
  | _ :: _, [] => false
  | a :: as, b :: bs => if a = b then strLeB as bs else decide (a.val < b.val)

/-- Ordered insertion used to model `Array.prototype.sort()`. -/
def insertSorted (x : String) : List String → List String
  | [] => [x]
  | y :: t => if strLeB x.toList y.toList then x :: y :: t else y :: insertSorted x t

/-- Model of `Array.prototype.sort()` on string arrays. -/
def jsSortStrings : List String → List String
  | [] => []
  | x :: t => insertSorted x (jsSortStrings t)

/-- Translation of `parseAndroidSdkString`: `parseInt` of the name with the
first occurrence of `android-` removed (`none` models `NaN`). -/
def parseAndroidSdkString (s : String) : Option Nat :=
  let stripped := replaceFirstList ("android" ++ "-").toList [] s.toList
  let d := stripped.takeWhile Char.isDigit
  if d.isEmpty then none else some (digitsToNat d)

/-- Translation of `getInstalledTargets`: the listing of the `platforms`
directory under the SDK root, `[]` on any failure (an unset root makes
`path.join` throw inside the try). -/
def getInstalledTargets (env : Env) : List String :=
  match env.androidHome with
  | none => []
  | some h =>
    if env.fsExists (pathJoin h "platforms") then env.readDir (pathJoin h "platforms")
    else []

/-- Translation of `getLatestValidAndroidTarget`: walk the sorted supported
targets, remembering the last one present among the installed targets. -/
def getLatestValidAndroidTarget (env : Env) : Option String :=
  (jsSortStrings SUPPORTED_TARGETS).foldl
    (fun acc s => if (getInstalledTargets env).contains s then some s else acc) none

/-- Translation of `getCompileSdk`: the parsed numeric suffix of the latest
valid target, kept only when truthy and at least the minimum required
compile target. -/
def getCompileSdk (env : Env) : Option Nat :=
  match getLatestValidAndroidTarget env with
  | some t =>
    match parseAndroidSdkString t with
    | some n => if n != 0 && decide (n ≥ MIN_REQUIRED_COMPILE_TARGET) then some n else none
    | none => none
  | none => none

/-- Translation of `getMaxSupportedVersion`: the parsed numeric suffix of
the last sorted supported target. -/
def getMaxSupportedVersion : Nat :=
  (parseAndroidSdkString ((jsSortStrings SUPPORTED_TARGETS).getLast?.getD "")).getD 0

/-- Satisfaction of the build-tools range `>=23 <=maxV`.  node-semver
desugars the partial comparators to `>=23.0.0 <(maxV+1).0.0-0`; the
prerelease bound is irrelevant for the plain numeric tokens the extraction
regex produces. -/
def buildToolsSat (maxV : Nat) (t : VersionTriple) : Bool :=
  versionLeB (23, 0, 0) t && versionLtB t (maxV + 1, 0, 0)

/-- Satisfaction of the support-repository range `>=c <c+1` computed by
`getAppCompatRange` (node-semver desugaring as above). -/
def appCompatSat (c : Nat) (t : VersionTriple) : Bool :=
  versionLeB (c, 0, 0) t && versionLtB t (c + 1, 0, 0)

/-- One step of the `semver.maxSatisfying` walk: skip an invalid or
unsatisfying candidate, replace the running maximum only on a strictly
greater candidate. -/
def maxSatStep (sat : VersionTriple → Bool) (acc : Option (String × VersionTriple))
    (v : String) : Option (String × VersionTriple) :=
  match semverParse v with
  | none => acc
  | some t =>
    if sat t then
      match acc with
      | none => some (v, t)
      | some (_, tw) => if versionLtB tw t then some (v, t) else acc
    else acc

/-- Model of `semver.maxSatisfying(versions, range)`. -/
def maxSatisfying (versions : List String) (sat : VersionTriple → Bool) : Option String :=
  (versions.foldl (maxSatStep sat) none).map Prod.fst

/-- Translation of `getMatchingDir`: list the directory, extract a version
token from each subdirectory name, take the maximum token satisfying the
range, and return the first subdirectory name containing that token as a
substring (`dir.indexOf(version) !== -1`). -/
def getMatchingDir (env : Env) (pathToDir : String) (sat : VersionTriple → Bool) :
    Option String :=
  if env.fsExists pathToDir then
    let subDirs := env.readDir pathToDir
    let subDirsVersions := subDirs.filterMap extractVersionToken
    match maxSatisfying subDirsVersions sat with
    | some version => subDirs.find? (fun dir => containsSubstr dir version)
    | none => none
  else none

/-- Translation of `getBuildToolsVersion`: the matching directory of
`build-tools` under a truthy SDK root against the build-tools range. -/
def getBuildToolsVersion (env : Env) : Option String :=
  match env.androidHome with
  | some h =>
    if h == "" then none
    else getMatchingDir env (pathJoin h "build-tools") (buildToolsSat getMaxSupportedVersion)
  | none => none

/-- Translation of `getAndroidSupportRepositoryVersion`: the matching
directory of the appcompat-v7 repository path against the range derived
from the resolved compile target, requiring a truthy SDK root and a
resolved compile target. -/
def getAndroidSupportRepositoryVersion (env : Env) : Option String :=
  match env.androidHome, getCompileSdk env with
  | some h, some c =>
    if h == "" then none
    else getMatchingDir env
      (pathJoin h "extras/android/m2repository/com/android/support/appcompat-v7")
      (appCompatSat c)
  | _, _ => none

/-- The `IAndroidToolsInfoData` record. -/
structure ToolsInfoData where
  androidHomeEnvVar : Option String
  compileSdkVersion : Option Nat
  buildToolsVersion : Option String
  supportRepositoryVersion : Option String
deriving DecidableEq

/-- The mutable `toolsInfo` field of `AndroidToolsInfo`: the SDK capability
record, cached unconditionally on first access. -/
structure AndroidToolsInfoState where
  toolsInfo : Option ToolsInfoData
deriving DecidableEq

/-- The record `getToolsInfo` computes on a cache miss. -/
def mkToolsInfoData (env : Env) : ToolsInfoData where
  androidHomeEnvVar := env.androidHome
  compileSdkVersion := getCompileSdk env
  buildToolsVersion := getBuildToolsVersion env
  supportRepositoryVersion := getAndroidSupportRepositoryVersion env

/-- Translation of `AndroidToolsInfo.getToolsInfo`: compute and store the
record on first access, return the stored record ever after — there is no
caching flag in this class. -/
def getToolsInfo (env : Env) (s : AndroidToolsInfoState) :
    ToolsInfoData × AndroidToolsInfoState :=
  match s.toolsInfo with
  | some t => (t, s)
  | none => (mkToolsInfoData env, ⟨some (mkToolsInfoData env)⟩)

/-- Translation of `validateAndroidHomeEnvVariable`: the not-set warning
for a falsy or non-existent SDK root; otherwise the incorrect-directory
warning under the condition
`expectedDirectoriesInAndroidHome.map(dir => fs.exists(join(home, dir))).length === 0`
— the length of a `map` over the four expected names, which is always 4. -/
def validateAndroidHomeEnvVariable (env : Env) : List WarningKind :=
  let expectedDirectoriesInAndroidHome := ["build-tools", "tools", "platform-tools", "extras"]
  match env.androidHome with
  | none => [WarningKind.androidHomeNotSet]
  | some h =>
    if h == "" then [WarningKind.androidHomeNotSet]
    else if !(env.fsExists h) then [WarningKind.androidHomeNotSet]
    else if (expectedDirectoriesInAndroidHome.map
        (fun dir => env.fsExists (pathJoin h dir))).length == 0 then
      [WarningKind.androidHomeIncorrectDir]
    else []

/-! ### Environments used by concrete instantiations

`envBase` is a machine with nothing installed (every command fails to
spawn, the filesystem is empty, no environment variables are set) on a
Linux host; the other environments override single aspects of it. -/

/-- A bare Linux host: every probe target is absent. -/
def envBase : Env where
  host := .linux
  isWindows64 := false
  shellStr := "/bin/bash"
  procArch := "x64"
  nodeVersionStr := "v6.9.1"
  dotNetVersion := none
  javaVersionCmd := .err
  javacCmd := .err
  xcodebuildCmd := .err
  npmCmd := .err
  nodeGypCmd := .err
  gemWhichXcodeprojCmd := .err
  podVersionCmd := .err
  unameCmd := .err
  adbVersionCmd := .err
  androidHCmd := .err
  monoCmd := .err
  gitCmd := .err
  gradleCmd := .err
  tnsCmd := .err
  xcprojCmd := .err
  podInstallCmd := .err
  extractZipOk := true
  podsWorkspaceExists := false
  fsExists := fun _ => false
  readDir := fun _ => []
  androidHome := none
  javaHome := none
  commonProgramFiles := none
  commonProgramFilesX86 := none
  regProductName := none
  regCurrentVersion := none
  regCurrentBuild := none

/-! ### Generic lemmas about the memoization wrapper and sequencing -/

lemma PR.bind_mk_ok {α β : Type} (v : α) (s : SysInfoState) (l : List ProbeId)
    (f : α → SysInfoState → PR β) :
    PR.bind ⟨.ok v, s, l⟩ f = ⟨(f v s).out, (f v s).st, l ++ (f v s).log⟩ := rfl

lemma PR.bind_mk_err {α β : Type} (e : JsErr) (s : SysInfoState) (l : List ProbeId)
    (f : α → SysInfoState → PR β) :
    PR.bind ⟨.error e, s, l⟩ f = ⟨.error e, s, l⟩ := rfl

lemma PR.bind_frame {γ α β : Type} (P : SysInfoState → γ) (r : PR α)
    (f : α → SysInfoState → PR β) (s0 : SysInfoState)
    (hr : P r.st = P s0) (hf : ∀ v s, P ((f v s).st) = P s) :
    P ((r.bind f).st) = P s0 := by
  rcases r with ⟨o, s, l⟩
  cases o with
  | error e => simpa [PR.bind] using hr
  | ok v => simpa [PR.bind, hf v s] using hr

lemma getValueForProperty_frame {α γ : Type} (P : SysInfoState → γ) (env : Env)
    (st : SysInfoState) (read : SysInfoState → Option α)
    (write : SysInfoState → Option α → SysInfoState) (pid : ProbeId)
    (strategy : Env → SysInfoState → PR (Option α))
    (hw : ∀ s v, P (write s v) = P s)
    (hs : ∀ e s, P ((strategy e s).st) = P s) :
    P ((getValueForProperty env st read write pid strategy).st) = P st := by
  unfold getValueForProperty
  split
  · split
    · rfl
    · cases h : (strategy env st).out <;> simp [h, hw, hs]
  · simp [hs]

lemma leafFrame {α γ : Type} (P : SysInfoState → γ) (read : SysInfoState → Option α)
    (write : SysInfoState → Option α → SysInfoState) (pid : ProbeId)
    (f : Env → Except JsErr (Option α))
    (hw : ∀ s v, P (write s v) = P s) (e : Env) (s : SysInfoState) :
    P ((getValueForProperty e s read write pid (pureStrategy f)).st) = P s :=
  getValueForProperty_frame P e s read write pid (pureStrategy f) hw (fun _ _ => rfl)

lemma getValueForProperty_hit {α : Type} (env : Env) (st : SysInfoState)
    (read : SysInfoState → Option α) (write : SysInfoState → Option α → SysInfoState)
    (pid : ProbeId) (strategy : Env → SysInfoState → PR (Option α)) (v : α)
    (hc : st.shouldCache = true) (hr : read st = some v) :
    getValueForProperty env st read write pid strategy = ⟨.ok (some v), st, []⟩ := by
  unfold getValueForProperty
  simp [hc, hr]

lemma getValueForProperty_miss_pure {α : Type} (env : Env) (st : SysInfoState)
    (read : SysInfoState → Option α) (write : SysInfoState → Option α → SysInfoState)
    (pid : ProbeId) (f : Env → Except JsErr (Option α))
    (hc : st.shouldCache = true) (hr : read st = none) :
    getValueForProperty env st read write pid (pureStrategy f) =
      match f env with
      | .ok v => ⟨.ok v, write st v, [pid]⟩
      | .error e => ⟨.error e, st, [pid]⟩ := by
  unfold getValueForProperty pureStrategy
  simp only [hc, hr, if_true]

lemma getValueForProperty_nocache {α : Type} (env : Env) (st : SysInfoState)
    (read : SysInfoState → Option α) (write : SysInfoState → Option α → SysInfoState)
    (pid : ProbeId) (f : Env → Except JsErr (Option α))
    (hc : st.shouldCache = false) :
    getValueForProperty env st read write pid (pureStrategy f) = ⟨f env, st, [pid]⟩ := by
  unfold getValueForProperty pureStrategy
  simp [hc]

lemma getValueForProperty_pure_ok {α : Type} (env : Env) (st : SysInfoState)
    (read : SysInfoState → Option α) (write : SysInfoState → Option α → SysInfoState)
    (pid : ProbeId) (f : Env → Option α) :
    ∃ v, (getValueForProperty env st read write pid
      (pureStrategy fun e => .ok (f e))).out = .ok v := by
  unfold getValueForProperty pureStrategy
  split
  · split
    · exact ⟨_, rfl⟩
    · exact ⟨_, rfl⟩
  · exact ⟨_, rfl⟩

lemma getValueForProperty_pureE_ok {α : Type} (env : Env) (st : SysInfoState)
    (read : SysInfoState → Option α) (write : SysInfoState → Option α → SysInfoState)
    (pid : ProbeId) (f : Env → Except JsErr (Option α)) (w : Option α)
    (hf : f env = .ok w) :
    ∃ v, (getValueForProperty env st read write pid (pureStrategy f)).out = .ok v := by
  unfold getValueForProperty pureStrategy
  split
  · split
    · exact ⟨_, rfl⟩
    · simp only [hf]
      exact ⟨_, rfl⟩
  · simp only [hf]
    exact ⟨_, rfl⟩

/-! ### Claim C1 -/

/-- Claim C1, counterexample.  On a machine where `java -version` cannot be
spawned, the first call of `getJavaVersion` (caching enabled, fresh state)
produces the absent result and runs the strategy; the second sequential
call runs the strategy again: the absent-but-attempted result is not a
terminal state, because the stored `null` is indistinguishable from
not-yet-computed in the cache test. -/
theorem absent_probe_reattempted_counterexample :
    initialSysInfoState.shouldCache = true
    ∧ (getJavaVersion envBase initialSysInfoState).out = .ok none
    ∧ (getJavaVersion envBase initialSysInfoState).log = [ProbeId.java]
    ∧ (getJavaVersion envBase ((getJavaVersion envBase initialSysInfoState).st)).log
        = [ProbeId.java] := by
  refine ⟨rfl, rfl, rfl, rfl⟩

/-- Claim C1, amended: with caching enabled, two sequential calls to the
same probe accessor (`getJavaVersion`, `getAdbVersion`) return identical
values; when the first call produced a present result the detection
strategy runs exactly once over both calls (the first call runs it, the
second does not); an absent result however is re-attempted by the second
call. -/
theorem probe_sequential_calls_amended (env : Env) :
    ((getJavaVersion env ((getJavaVersion env initialSysInfoState).st)).out
        = (getJavaVersion env initialSysInfoState).out
      ∧ (getJavaVersion env initialSysInfoState).log = [ProbeId.java]
      ∧ ∀ v, (getJavaVersion env initialSysInfoState).out = .ok (some v) →
          (getJavaVersion env ((getJavaVersion env initialSysInfoState).st)).log = [])
    ∧ ((getAdbVersion env ((getAdbVersion env initialSysInfoState).st)).out
        = (getAdbVersion env initialSysInfoState).out
      ∧ (getAdbVersion env initialSysInfoState).log = [ProbeId.adb]
      ∧ ∀ v, (getAdbVersion env initialSysInfoState).out = .ok (some v) →
          (getAdbVersion env ((getAdbVersion env initialSysInfoState).st)).log = []) := by
  constructor
  · cases hv : javaVersionValue env <;>
      simp [getJavaVersion, getValueForProperty, pureStrategy, initialSysInfoState, hv]
  · cases hv : adbVersionValue env <;>
      simp [getAdbVersion, getValueForProperty, pureStrategy, initialSysInfoState, hv]

/-- A machine whose `java -version` and `adb version` probes succeed. -/
def envJavaAdbOk : Env :=
  { envBase with
    javaVersionCmd := .res 0 "" "java version \"1.8.0_131\""
    adbVersionCmd := .res 0 "Android Debug Bridge version 1.0.39" "" }

/-- Witness for claim C1 at a concrete machine: present results are served
from the cache on the second call (the strategy does not run again). -/
theorem probe_sequential_calls_amended_witness :
    (getJavaVersion envJavaAdbOk ((getJavaVersion envJavaAdbOk initialSysInfoState).st)).log = []
    ∧ (getAdbVersion envJavaAdbOk ((getAdbVersion envJavaAdbOk initialSysInfoState).st)).log
        = [] :=
  ⟨(probe_sequential_calls_amended envJavaAdbOk).1.2.2 "1.8.0" rfl,
   (probe_sequential_calls_amended envJavaAdbOk).2.2.2 "1.0.39" rfl⟩

/-! ### Claim C9 -/

/-- A machine with an SDK root set (the capability record computed under it
differs from the one computed under `envBase`). -/
def envSdkA : Env := { envBase with androidHome := some "/sdkA" }

/-- Claim C9, counterexample.  The SDK capability record of
`AndroidToolsInfo.getToolsInfo` is cached unconditionally: the class has no
caching flag, so after `setShouldCacheSysInfo(false)` (which only flips the
`SysInfo` flag) a further access still returns the previously stored
record — here the record computed under `envSdkA` — instead of recomputing
from the current environment, and the store stays in place. -/
theorem toolsInfo_ignores_caching_flag_counterexample :
    (getToolsInfo envBase ((getToolsInfo envSdkA ⟨none⟩).2)).1 = mkToolsInfoData envSdkA
    ∧ (getToolsInfo envBase ((getToolsInfo envSdkA ⟨none⟩).2)).1 ≠ mkToolsInfoData envBase
    ∧ (getToolsInfo envBase ((getToolsInfo envSdkA ⟨none⟩).2)).2
        = (getToolsInfo envSdkA ⟨none⟩).2 := by
  refine ⟨rfl, by decide, rfl⟩

/-- Claim C9, amended: disabling caching makes the `SysInfo` probe
accessors run their strategy on every call without storing anything, and
with caching on a cached probe result is served unchanged forever; but the
SDK capability record of `getToolsInfo` is outside the flag: it is computed
and stored on first access and returned from the store ever after. -/
theorem caching_lifecycle_amended :
    (∀ (env : Env) (st : SysInfoState), st.shouldCache = false →
        getJavaVersion env st = ⟨.ok (javaVersionValue env), st, [ProbeId.java]⟩)
    ∧ (∀ (env : Env) (st : SysInfoState) (v : String), st.shouldCache = true →
        st.javaVerCache = some v → getJavaVersion env st = ⟨.ok (some v), st, []⟩)
    ∧ (∀ (env : Env) (s : AndroidToolsInfoState) (t : ToolsInfoData),
        s.toolsInfo = some t → getToolsInfo env s = (t, s))
    ∧ (∀ env : Env, getToolsInfo env ⟨none⟩ =
        (mkToolsInfoData env, ⟨some (mkToolsInfoData env)⟩)) := by
  refine ⟨?_, ?_, ?_, ?_⟩
  · intro env st hc
    exact getValueForProperty_nocache env st _ _ _ _ hc
  · intro env st v hc hr
    exact getValueForProperty_hit env st _ _ _ _ v hc hr
  · intro env s t h
    unfold getToolsInfo
    rw [h]
  · intro env
    rfl

/-- Witness for claim C9 at concrete inputs. -/
theorem caching_lifecycle_amended_witness :
    getJavaVersion envJavaAdbOk (setShouldCacheSysInfo initialSysInfoState false)
      = ⟨.ok (javaVersionValue envJavaAdbOk),
          setShouldCacheSysInfo initialSysInfoState false, [ProbeId.java]⟩
    ∧ getJavaVersion envJavaAdbOk { initialSysInfoState with javaVerCache := some "1.8.0" }
      = ⟨.ok (some "1.8.0"), { initialSysInfoState with javaVerCache := some "1.8.0" }, []⟩
    ∧ getToolsInfo envBase ⟨some (mkToolsInfoData envSdkA)⟩
      = (mkToolsInfoData envSdkA, ⟨some (mkToolsInfoData envSdkA)⟩)
    ∧ getToolsInfo envSdkA ⟨none⟩
      = (mkToolsInfoData envSdkA, ⟨some (mkToolsInfoData envSdkA)⟩) :=
  ⟨caching_lifecycle_amended.1 envJavaAdbOk _ rfl,
   caching_lifecycle_amended.2.1 envJavaAdbOk _ "1.8.0" rfl rfl,
   caching_lifecycle_amended.2.2.1 envBase _ (mkToolsInfoData envSdkA) rfl,
   caching_lifecycle_amended.2.2.2 envSdkA⟩

/-! ### Claim C4 -/

/-- Claim C4 (code bug).  Whenever the SDK root variable is truthy and
points to an existing path, `validateAndroidHomeEnvVariable` returns no
warning at all — in particular for a directory lacking every expected
subdirectory (the environment is arbitrary in all other respects).  The
incorrect-directory branch is guarded by
`expectedDirectories.map(dir => fs.exists(...)).length === 0`, and the
length of the mapped array is always 4. -/
theorem androidHome_incorrect_dir_branch_dead (env : Env) (h : String)
    (h1 : env.androidHome = some h) (h2 : h ≠ "") (h3 : env.fsExists h = true) :
    validateAndroidHomeEnvVariable env = [] := by
  unfold validateAndroidHomeEnvVariable
  rw [h1]
  simp [h2, h3]

/-- A machine where the SDK root points to an existing directory that
contains none of the expected subdirectories. -/
def envSdkOnlyDir : Env :=
  { envBase with androidHome := some "/sdk", fsExists := fun p => p == "/sdk" }

/-- Witness for claim C4: the failing input evaluated — the claimed
incorrect-directory warning is never produced. -/
theorem androidHome_incorrect_dir_branch_dead_witness :
    validateAndroidHomeEnvVariable envSdkOnlyDir = [] :=
  androidHome_incorrect_dir_branch_dead envSdkOnlyDir "/sdk" rfl (by decide) rfl

/-! ### Claim C7 -/

/-- A Darwin machine where `pod install` terminates with exit code 1. -/
def envPodInstallFails : Env :=
  { envBase with host := .darwin, podInstallCmd := .res 1 "" "pod failure" }

/-- Claim C7, counterexample.  When the install step exits nonzero the
functional check returns the unknown marker (`null`), not `false`: the
default-rejecting process runner turns the nonzero exit into a rejection
that the catch converts to `null`, so the explicit false-on-nonzero branch
is bypassed. -/
theorem podsFunctional_nonzero_exit_counterexample :
    (isCocoaPodsWorkingCorrectly envPodInstallFails initialSysInfoState).out = .ok none
    ∧ (Except.ok (none : Option Bool) : Except JsErr (Option Bool)) ≠ .ok (some false) := by
  refine ⟨rfl, by decide⟩

/-- A Darwin machine where `pod install` succeeds and the workspace
artifact appears. -/
def envPodsGood : Env :=
  { envBase with host := .darwin, podInstallCmd := .res 0 "" "", podsWorkspaceExists := true }

/-- A Darwin machine where `pod install` cannot be spawned at all. -/
def envDarwinBare : Env := { envBase with host := .darwin }

/-- Claim C7, amended: the functional check returns `true` only if the
install step exits successfully and the workspace artifact exists; a
nonzero install exit is observed as a rejection of the default-rejecting
runner and yields the unknown marker without the artifact being consulted
(the explicit false-on-nonzero branch is unreachable); a spawn error
likewise yields the unknown marker rather than `false`; off Darwin the
check returns `false`.  The accessor serves exactly this strategy value on
a first attempt. -/
theorem podsFunctional_check_amended :
    (∀ (env : Env) (st : SysInfoState), st.shouldCache = true →
        st.isCocoaPodsWorkingCorrectlyCache = none →
        (isCocoaPodsWorkingCorrectly env st).out = podsFunctionalValue env)
    ∧ (∀ env : Env, podsFunctionalValue env = .ok (some true) →
        env.host = .darwin ∧ env.podsWorkspaceExists = true
          ∧ ∃ out serr, env.podInstallCmd = .res 0 out serr)
    ∧ (∀ (env : Env) (c : Nat) (out serr : String), env.host = .darwin →
        env.extractZipOk = true → env.podInstallCmd = .res c out serr → c ≠ 0 →
        podsFunctionalValue env = .ok none)
    ∧ (∀ env : Env, env.host = .darwin → env.extractZipOk = true →
        env.podInstallCmd = .err → podsFunctionalValue env = .ok none)
    ∧ (∀ env : Env, env.host ≠ .darwin → podsFunctionalValue env = .ok (some false)) := by
  refine ⟨?_, ?_, ?_, ?_, ?_⟩
  · intro env st hc hr
    unfold isCocoaPodsWorkingCorrectly
    rw [getValueForProperty_miss_pure env st _ _ _ _ hc hr]
    cases podsFunctionalValue env <;> rfl
  · intro env h
    unfold podsFunctionalValue at h
    cases hhost : env.host with
    | windows => rw [hhost] at h; simp at h
    | linux => rw [hhost] at h; simp at h
    | darwin =>
      rw [hhost] at h
      simp only [beq_self_eq_true, if_true] at h
      cases hz : env.extractZipOk with
      | false => rw [hz] at h; simp at h
      | true =>
        rw [hz] at h
        simp only [if_true] at h
        cases hcmd : env.podInstallCmd with
        | err => rw [hcmd] at h; simp [spawnFromEvent] at h
        | res c out serr =>
          rw [hcmd] at h
          by_cases hc : c = 0
          · subst hc
            simp only [spawnFromEvent, Bool.false_eq_true, if_false] at h
            simp at h
            exact ⟨rfl, h, out, serr, rfl⟩
          · simp [spawnFromEvent, hc] at h
  · intro env c out serr hd hz hcmd hc
    unfold podsFunctionalValue
    rw [if_pos (by simp [hd]), if_pos hz, hcmd]
    simp [spawnFromEvent, hc]
  · intro env hd hz hcmd
    unfold podsFunctionalValue
    rw [if_pos (by simp [hd]), if_pos hz, hcmd]
    rfl
  · intro env hd
    unfold podsFunctionalValue
    rw [if_neg (by simpa using hd)]

/-- Witness for claim C7 at concrete machines: each amended behaviour
exercised. -/
theorem podsFunctional_check_amended_witness :
    (isCocoaPodsWorkingCorrectly envPodInstallFails initialSysInfoState).out
      = podsFunctionalValue envPodInstallFails
    ∧ (envPodsGood.host = .darwin ∧ envPodsGood.podsWorkspaceExists = true
        ∧ ∃ out serr, envPodsGood.podInstallCmd = .res 0 out serr)
    ∧ podsFunctionalValue envPodInstallFails = .ok none
    ∧ podsFunctionalValue envDarwinBare = .ok none
    ∧ podsFunctionalValue envBase = .ok (some false) :=
  ⟨podsFunctional_check_amended.1 envPodInstallFails initialSysInfoState rfl rfl,
   podsFunctional_check_amended.2.1 envPodsGood rfl,
   podsFunctional_check_amended.2.2.1 envPodInstallFails 1 "" "pod failure" rfl rfl rfl
     (by decide),
   podsFunctional_check_amended.2.2.2.1 envDarwinBare rfl rfl rfl,
   podsFunctional_check_amended.2.2.2.2 envBase (by decide)⟩

/-! ### Claim C10 -/

lemma strBeq_comm_false {a b : String} (h : (a == b) = false) : (b == a) = false := by
  cases hb : (b == a) with
  | false => rfl
  | true =>
    rw [eq_of_beq hb] at h
    simp at h

lemma jsToLower_android : jsToLower ANDROID_PLATFORM_NAME = "android" := by decide

lemma jsToLower_ios : jsToLower IOS_PLATFORM_NAME = "ios" := by decide

lemma isPlatformSupported_eq (p : String) :
    isPlatformSupported p
      = ((jsToLower ANDROID_PLATFORM_NAME == jsToLower p)
        || (jsToLower IOS_PLATFORM_NAME == jsToLower p)) := by
  unfold isPlatformSupported SUPPORTED_PLATFORMS
  simp only [List.foldl]
  cases h : (jsToLower ANDROID_PLATFORM_NAME == jsToLower p) <;> simp [h]

/-- Claim C10: whenever `canExecuteLocalBuild` does not throw, its result
is the verdict of the Android requirements check or of the iOS
requirements check — after a successful `validatePlatform` the platform
lowers to one of the two supported names, so the trailing `return false`
branch is unreachable. -/
theorem canExecuteLocalBuild_delegates (a i : Bool) (p : String) (r : Bool)
    (h : canExecuteLocalBuild a i p = .ok r) :
    (jsToLower p = "android" ∧ r = a) ∨ (jsToLower p = "ios" ∧ r = i) := by
  unfold canExecuteLocalBuild validatePlatform at h
  cases h0 : (p == "") with
  | true => rw [h0] at h; simp at h
  | false =>
    rw [h0] at h
    cases h1 : isPlatformSupported p with
    | false => rw [h1] at h; simp at h
    | true =>
      rw [h1] at h
      simp only [Bool.not_true, Bool.false_eq_true, if_false, if_true] at h
      rw [jsToLower_android, jsToLower_ios] at h
      cases h2 : (jsToLower p == "android") with
      | true =>
        rw [h2] at h
        simp only [if_true] at h
        exact Or.inl ⟨eq_of_beq h2, by injection h with h; exact h.symm⟩
      | false =>
        rw [h2] at h
        simp only [Bool.false_eq_true, if_false] at h
        cases h3 : (jsToLower p == "ios") with
        | true =>
          rw [h3] at h
          simp only [if_true] at h
          exact Or.inr ⟨eq_of_beq h3, by injection h with h; exact h.symm⟩
        | false =>
          have h4 := isPlatformSupported_eq p
          rw [h1, jsToLower_android, jsToLower_ios,
            strBeq_comm_false h2, strBeq_comm_false h3] at h4
          simp at h4

/-- Witness for claim C10: the case-insensitive Android spelling delegates
to the Android requirements check. -/
theorem canExecuteLocalBuild_delegates_witness :
    (jsToLower "ANDROID" = "android" ∧ true = true)
    ∨ (jsToLower "ANDROID" = "ios" ∧ true = false) :=
  canExecuteLocalBuild_delegates true false "ANDROID" true rfl

/-! ### Claim C2 -/

/-- A Darwin machine with CocoaPods 0.39.0 installed but no Xcode. -/
def envPodsOldNoXcode : Env :=
  { envBase with host := .darwin, podVersionCmd := .res 0 "0.39.0" "" }

/-- Claim C2, counterexample.  `getXcprojInfo` is a probe accessor that
aborts with a thrown error: with CocoaPods 0.39.0 detected and Xcode
absent, `semver.lt(cocoaPodsVersion, "1.0.0")` is true and
`semver.gte(xcodeVersion, "7.3.0")` throws on the absent Xcode version —
the underlying `xcodebuild` failure was absorbed into absence, but the
absence then resurfaces as an uncaught exception. -/
theorem xcprojInfo_rejection_counterexample :
    (getXcprojInfo envPodsOldNoXcode initialSysInfoState).out = .error .invalidVersionArg
    ∧ xcodeVersionValue envPodsOldNoXcode = none
    ∧ cocoaPodsVersionValue envPodsOldNoXcode = some "0.39.0"
    ∧ (getSysInfo envPodsOldNoXcode initialSysInfoState).out = .error .invalidVersionArg := by
  refine ⟨rfl, rfl, rfl, rfl⟩

/-- Claim C2, amended: every I/O, subprocess, filesystem or registry
failure is absorbed into absence at the boundary of each listed probe
accessor; the exceptions are `getXcprojInfo` (and its callers
`isCocoaPodsUpdateRequired`/`getSysInfo`), where an absent or unparsable
version reaching the unguarded semver comparison throws,
`isCocoaPodsWorkingCorrectly`, where a fixture-archive extraction failure
propagates (the conjunct assumes extraction succeeds on Darwin), and
`isITunesInstalled`, where a missing common-program-files variable on a
Windows host makes `path.join` throw (the conjunct assumes the variable is
present there).  `validatePlatform` rejects exactly the empty and the
unsupported platform names, the latter with a message enumerating the
supported platforms, and `canExecuteLocalBuild` throws exactly when
`validatePlatform` does. -/
theorem probe_failures_absorbed_amended :
    (∀ (env : Env) (st : SysInfoState),
       (∃ v, (getJavaVersion env st).out = .ok v)
     ∧ (∃ v, (getJavaCompilerVersion env st).out = .ok v)
     ∧ (∃ v, (getXcodeVersion env st).out = .ok v)
     ∧ (∃ v, (getNpmVersion env st).out = .ok v)
     ∧ (∃ v, (getNodeGypVersion env st).out = .ok v)
     ∧ (∃ v, (getXcodeprojGemLocation env st).out = .ok v)
     ∧ (∃ v, (getCocoaPodsVersion env st).out = .ok v)
     ∧ (∃ v, (getOs env st).out = .ok v)
     ∧ (∃ v, (getAdbVersion env st).out = .ok v)
     ∧ (∃ v, (isAndroidInstalled env st).out = .ok v)
     ∧ (∃ v, (getMonoVersion env st).out = .ok v)
     ∧ (∃ v, (getGitVersion env st).out = .ok v)
     ∧ (∃ v, (getGradleVersion env st).out = .ok v)
     ∧ (∃ v, (getNativeScriptCliVersion env st).out = .ok v))
    ∧ (∀ (env : Env) (st : SysInfoState),
        (env.host = .windows →
          (if env.isWindows64 then env.commonProgramFilesX86
           else env.commonProgramFiles).isSome = true) →
        ∃ v, (isITunesInstalled env st).out = .ok v)
    ∧ (∀ (env : Env) (st : SysInfoState),
        (env.host = .darwin → env.extractZipOk = true) →
        ∃ v, (isCocoaPodsWorkingCorrectly env st).out = .ok v)
    ∧ validatePlatform "" = .error "You must specify a platform."
    ∧ (∀ p : String, p ≠ "" → isPlatformSupported p = true → validatePlatform p = .ok ())
    ∧ (∀ p : String, p ≠ "" → isPlatformSupported p = false →
        validatePlatform p = .error ("Platform " ++ p
          ++ " is not supported. The supported platforms are: "
          ++ joinListStr ", " SUPPORTED_PLATFORMS))
    ∧ (∀ p : String, isPlatformSupported p = true ↔
        ∃ q ∈ SUPPORTED_PLATFORMS, jsToLower q = jsToLower p)
    ∧ (∀ (a i : Bool) (p e : String),
        canExecuteLocalBuild a i p = .error e ↔ validatePlatform p = .error e) := by
  refine ⟨?_, ?_, ?_, rfl, ?_, ?_, ?_, ?_⟩
  · intro env st
    exact ⟨getValueForProperty_pure_ok env st _ _ _ _,
      getValueForProperty_pure_ok env st _ _ _ _,
      getValueForProperty_pure_ok env st _ _ _ _,
      getValueForProperty_pure_ok env st _ _ _ _,
      getValueForProperty_pure_ok env st _ _ _ _,
      getValueForProperty_pure_ok env st _ _ _ _,
      getValueForProperty_pure_ok env st _ _ _ _,
      getValueForProperty_pure_ok env st _ _ _ _,
      getValueForProperty_pure_ok env st _ _ _ _,
      getValueForProperty_pure_ok env st _ _ _ _,
      getValueForProperty_pure_ok env st _ _ _ _,
      getValueForProperty_pure_ok env st _ _ _ _,
      getValueForProperty_pure_ok env st _ _ _ _,
      getValueForProperty_pure_ok env st _ _ _ _⟩
  · intro env st h
    have hval : ∃ w, itunesValue env = .ok w := by
      unfold itunesValue
      cases hh : env.host with
      | linux => exact ⟨_, rfl⟩
      | darwin => exact ⟨_, rfl⟩
      | windows =>
        obtain ⟨cpf, hc⟩ := Option.isSome_iff_exists.mp (h hh)
        rw [hc]
        exact ⟨_, rfl⟩
    obtain ⟨w, hw⟩ := hval
    exact getValueForProperty_pureE_ok env st _ _ _ _ w hw
  · intro env st h
    have hval : ∃ w, podsFunctionalValue env = .ok w := by
      unfold podsFunctionalValue
      cases hh : env.host with
      | linux => exact ⟨_, rfl⟩
      | windows => exact ⟨_, rfl⟩
      | darwin =>
        rw [h hh]
        exact ⟨_, rfl⟩
    obtain ⟨w, hw⟩ := hval
    exact getValueForProperty_pureE_ok env st _ _ _ _ w hw
  · intro p hp hs
    unfold validatePlatform
    rw [beq_eq_false_iff_ne.mpr hp, hs]
    rfl
  · intro p hp hs
    unfold validatePlatform
    rw [beq_eq_false_iff_ne.mpr hp, hs]
    rfl
  · intro p
    rw [isPlatformSupported_eq p]
    simp only [SUPPORTED_PLATFORMS, List.mem_cons, List.not_mem_nil, or_false,
      exists_eq_or_imp, exists_eq_left, Bool.or_eq_true, beq_iff_eq]
  · intro a i p e
    unfold canExecuteLocalBuild
    cases hv : validatePlatform p with
    | error e2 => simp
    | ok u =>
      constructor
      · intro h2
        split at h2
        · simp_all
        · split at h2
          · simp at h2
          · split at h2 <;> simp at h2
      · intro h2
        simp at h2

/-- A 32-bit Windows machine with the common-program-files variable set. -/
def envWinCpf : Env :=
  { envBase with host := .windows, commonProgramFiles := some "C:/Program Files/Common Files" }

/-- Witness for claim C2 at concrete machines and platform names. -/
theorem probe_failures_absorbed_amended_witness :
    (∃ v, (getJavaVersion envBase initialSysInfoState).out = .ok v)
    ∧ (∃ v, (isITunesInstalled envWinCpf initialSysInfoState).out = .ok v)
    ∧ (∃ v, (isCocoaPodsWorkingCorrectly envDarwinBare initialSysInfoState).out = .ok v)
    ∧ validatePlatform "iOS" = .ok ()
    ∧ validatePlatform "blackberry" = .error ("Platform " ++ "blackberry"
        ++ " is not supported. The supported platforms are: "
        ++ joinListStr ", " SUPPORTED_PLATFORMS)
    ∧ (isPlatformSupported "ANDROID" = true ↔
        ∃ q ∈ SUPPORTED_PLATFORMS, jsToLower q = jsToLower "ANDROID")
    ∧ (canExecuteLocalBuild true true "" = .error "You must specify a platform." ↔
        validatePlatform "" = .error "You must specify a platform.") :=
  ⟨(probe_failures_absorbed_amended.1 envBase initialSysInfoState).1,
   probe_failures_absorbed_amended.2.1 envWinCpf initialSysInfoState (fun _ => rfl),
   probe_failures_absorbed_amended.2.2.1 envDarwinBare initialSysInfoState (fun _ => rfl),
   probe_failures_absorbed_amended.2.2.2.2.1 "iOS" (by decide) (by decide),
   probe_failures_absorbed_amended.2.2.2.2.2.1 "blackberry" (by decide) (by decide),
   probe_failures_absorbed_amended.2.2.2.2.2.2.1 "ANDROID",
   probe_failures_absorbed_amended.2.2.2.2.2.2.2 true true "" "You must specify a platform."⟩

/-! ### Claim C6 -/

/-- Claim C6: the support-repository range `>=c <c+1` accepts exactly the
versions whose major component equals the resolved compile target `c`; the
resolution is absent whenever the SDK root is unset (or empty, which is
equally falsy) or the compile target is unresolved; and with both resolved
the result is the matching directory of the appcompat repository against
that range. -/
theorem supportLibrary_range_and_absence :
    (∀ env : Env,
        env.androidHome = none ∨ env.androidHome = some "" ∨ getCompileSdk env = none →
        getAndroidSupportRepositoryVersion env = none)
    ∧ (∀ (c : Nat) (t : VersionTriple), appCompatSat c t = true ↔ t.1 = c)
    ∧ (∀ (env : Env) (h : String) (c : Nat), env.androidHome = some h → h ≠ "" →
        getCompileSdk env = some c →
        getAndroidSupportRepositoryVersion env
          = getMatchingDir env
              (pathJoin h "extras/android/m2repository/com/android/support/appcompat-v7")
              (appCompatSat c)) := by
  refine ⟨?_, ?_, ?_⟩
  · intro env h
    unfold getAndroidSupportRepositoryVersion
    rcases h with h | h | h
    · rw [h]
    · rw [h]
      cases getCompileSdk env <;> rfl
    · rw [h]
      cases env.androidHome <;> rfl
  · intro c t
    obtain ⟨M, m, p⟩ := t
    unfold appCompatSat versionLeB versionLtB
    simp only [Bool.or_eq_true, Bool.and_eq_true, decide_eq_true_eq, beq_iff_eq,
      Prod.mk.injEq]
    omega
  · intro env h c h1 h2 h3
    unfold getAndroidSupportRepositoryVersion
    rw [h1, h3]
    simp [h2]

/-- An SDK with target android-25 installed and appcompat revisions 24.3.1
and 25.1.0. -/
def envSupportRepo : Env :=
  { envBase with
    androidHome := some "/sdk"
    fsExists := fun p => p == "/sdk/platforms"
      || p == "/sdk/extras/android/m2repository/com/android/support/appcompat-v7"
    readDir := fun p =>
      if p == "/sdk/platforms" then ["android-25"]
      else if p == "/sdk/extras/android/m2repository/com/android/support/appcompat-v7" then
        ["24.3.1", "25.1.0"]
      else [] }

/-- Witness for claim C6: the range collapse at compile target 25 — a 24.x
candidate is rejected and 25.1.0 accepted — and both absence conditions at
concrete machines. -/
theorem supportLibrary_range_and_absence_witness :
    getAndroidSupportRepositoryVersion envBase = none
    ∧ (appCompatSat 25 (24, 3, 1) = true ↔ (24, 3, 1).1 = 25)
    ∧ (appCompatSat 25 (25, 1, 0) = true ↔ (25, 1, 0).1 = 25)
    ∧ getAndroidSupportRepositoryVersion envSupportRepo
        = getMatchingDir envSupportRepo
            (pathJoin "/sdk" "extras/android/m2repository/com/android/support/appcompat-v7")
            (appCompatSat 25) :=
  ⟨supportLibrary_range_and_absence.1 envBase (Or.inl rfl),
   supportLibrary_range_and_absence.2.1 25 (24, 3, 1),
   supportLibrary_range_and_absence.2.1 25 (25, 1, 0),
   supportLibrary_range_and_absence.2.2 envSupportRepo "/sdk" 25 rfl (by decide) rfl⟩

/-! ### Claim C5: facts about the version order, the maximum-satisfying
walk and the token extraction -/

lemma versionLtB_true_iff (x y : VersionTriple) :
    versionLtB x y = true ↔
      x.1 < y.1 ∨ (x.1 = y.1 ∧ (x.2.1 < y.2.1 ∨ (x.2.1 = y.2.1 ∧ x.2.2 < y.2.2))) := by
  obtain ⟨a, b, c⟩ := x
  obtain ⟨d, e, f⟩ := y
  simp [versionLtB]

lemma versionLtB_false_iff (x y : VersionTriple) :
    versionLtB x y = false ↔
      ¬(x.1 < y.1 ∨ (x.1 = y.1 ∧ (x.2.1 < y.2.1 ∨ (x.2.1 = y.2.1 ∧ x.2.2 < y.2.2)))) := by
  rw [← versionLtB_true_iff]
  cases versionLtB x y <;> simp

lemma versionLtB_self (x : VersionTriple) : versionLtB x x = false := by
  rw [versionLtB_false_iff]
  omega

lemma versionLtB_trans_false {x y z : VersionTriple}
    (h1 : versionLtB x y = false) (h2 : versionLtB y z = false) :
    versionLtB x z = false := by
  rw [versionLtB_false_iff] at h1 h2 ⊢
  omega

lemma maxSatStep_keep_or_new (sat : VersionTriple → Bool)
    (acc : Option (String × VersionTriple)) (v : String) (p : String × VersionTriple)
    (h : maxSatStep sat acc v = some p) :
    acc = some p ∨ (p.1 = v ∧ semverParse v = some p.2 ∧ sat p.2 = true) := by
  unfold maxSatStep at h
  split at h
  · exact Or.inl h
  · rename_i t hpv
    split at h
    · rename_i hs
      split at h
      · injection h with h
        exact Or.inr ⟨by rw [← h], by rw [← h, hpv], by rw [← h]; exact hs⟩
      · split at h
        · injection h with h
          exact Or.inr ⟨by rw [← h], by rw [← h, hpv], by rw [← h]; exact hs⟩
        · exact Or.inl h
    · exact Or.inl h

lemma maxSatStep_dominates (sat : VersionTriple → Bool)
    (acc : Option (String × VersionTriple)) (v : String) (tv : VersionTriple)
    (hp : semverParse v = some tv) (hs : sat tv = true) :
    ∃ q, maxSatStep sat acc v = some q ∧ versionLtB q.2 tv = false := by
  unfold maxSatStep
  rw [hp]
  simp only [hs, if_true]
  cases acc with
  | none => exact ⟨(v, tv), rfl, versionLtB_self tv⟩
  | some p =>
    obtain ⟨w, tw⟩ := p
    cases hlt : versionLtB tw tv with
    | true => exact ⟨(v, tv), by simp [hlt], versionLtB_self tv⟩
    | false => exact ⟨(w, tw), by simp [hlt], hlt⟩

lemma foldl_maxSatStep_mono (sat : VersionTriple → Bool) :
    ∀ (l : List String) (acc : Option (String × VersionTriple)) (p : String × VersionTriple),
    acc = some p →
    ∃ q, l.foldl (maxSatStep sat) acc = some q ∧ versionLtB q.2 p.2 = false := by
  intro l
  induction l with
  | nil =>
    intro acc p h
    exact ⟨p, by simpa using h, versionLtB_self p.2⟩
  | cons x xs ih =>
    intro acc p h
    subst h
    obtain ⟨w, tw⟩ := p
    rw [List.foldl_cons]
    have hdom : ∃ q, maxSatStep sat (some (w, tw)) x = some q
        ∧ versionLtB q.2 tw = false := by
      unfold maxSatStep
      cases hpt : semverParse x with
      | none => exact ⟨(w, tw), rfl, versionLtB_self _⟩
      | some t =>
        cases hs : sat t with
        | false => exact ⟨(w, tw), by simp [hs], versionLtB_self _⟩
        | true =>
          simp only [hs, if_true]
          cases hlt : versionLtB tw t with
          | true =>
            refine ⟨(x, t), by simp, ?_⟩
            show versionLtB t tw = false
            rw [versionLtB_false_iff]
            rw [versionLtB_true_iff] at hlt
            omega
          | false => exact ⟨(w, tw), by simp [hlt], versionLtB_self _⟩
    obtain ⟨q, hq, hqp⟩ := hdom
    rw [hq]
    obtain ⟨r, hr, hrq⟩ := ih (some q) q rfl
    exact ⟨r, hr, versionLtB_trans_false hrq hqp⟩

lemma foldl_maxSatStep_spec (sat : VersionTriple → Bool) :
    ∀ (l : List String) (acc : Option (String × VersionTriple)),
    (∀ p, acc = some p → semverParse p.1 = some p.2 ∧ sat p.2 = true) →
    ∀ p, l.foldl (maxSatStep sat) acc = some p →
      (acc = some p ∨ (p.1 ∈ l ∧ semverParse p.1 = some p.2 ∧ sat p.2 = true))
      ∧ ∀ w tw, w ∈ l → semverParse w = some tw → sat tw = true →
          versionLtB p.2 tw = false := by
  intro l
  induction l with
  | nil =>
    intro acc hacc p h
    simp only [List.foldl_nil] at h
    refine ⟨Or.inl h, ?_⟩
    intro w tw hw
    simp at hw
  | cons x xs ih =>
    intro acc hacc p h
    rw [List.foldl_cons] at h
    have hacc2 : ∀ q, maxSatStep sat acc x = some q →
        semverParse q.1 = some q.2 ∧ sat q.2 = true := by
      intro q hq
      rcases maxSatStep_keep_or_new sat acc x q hq with h1 | h1
      · exact hacc q h1
      · rw [h1.1]
        exact ⟨h1.2.1, h1.2.2⟩
    obtain ⟨hmem, hmax⟩ := ih (maxSatStep sat acc x) hacc2 p h
    constructor
    · rcases hmem with h1 | h1
      · rcases maxSatStep_keep_or_new sat acc x p h1 with h2 | h2
        · exact Or.inl h2
        · obtain ⟨he, hp2, hs2⟩ := h2
          refine Or.inr ⟨?_, ?_, hs2⟩
          · rw [he]
            exact List.mem_cons_self x xs
          · rw [he]
            exact hp2
      · exact Or.inr ⟨List.mem_cons_of_mem x h1.1, h1.2⟩
    · intro w tw hw hpw hsw
      rcases List.mem_cons.mp hw with heq | hw2
      · subst heq
        obtain ⟨q, hq, hdom⟩ := maxSatStep_dominates sat acc w tw hpw hsw
        obtain ⟨q2, hq2, hmono⟩ := foldl_maxSatStep_mono sat xs (maxSatStep sat acc w) q (by rw [hq])
        have hq2p : q2 = p := by
          rw [hq2] at h
          injection h
        rw [← hq2p]
        exact versionLtB_trans_false hmono hdom
      · exact hmax w tw hw2 hpw hsw

lemma maxSatisfying_spec (L : List String) (sat : VersionTriple → Bool) (v : String)
    (h : maxSatisfying L sat = some v) :
    v ∈ L ∧ ∃ t, semverParse v = some t ∧ sat t = true ∧
      ∀ w tw, w ∈ L → semverParse w = some tw → sat tw = true →
        versionLtB t tw = false := by
  unfold maxSatisfying at h
  cases hf : L.foldl (maxSatStep sat) none with
  | none => rw [hf] at h; simp at h
  | some p =>
    rw [hf] at h
    simp at h
    obtain ⟨hmem, hmax⟩ := foldl_maxSatStep_spec sat L none (by intro p hp; simp at hp) p hf
    rcases hmem with h1 | h1
    · simp at h1
    · exact ⟨h ▸ h1.1, p.2, h ▸ h1.2.1, h1.2.2, hmax⟩

lemma versionTokenAt_front (l tok : List Char) (h : versionTokenAt l = some tok) :
    ∃ rest, l = tok ++ rest := by
  unfold versionTokenAt at h
  dsimp only at h
  split at h
  · exact absurd h (by simp)
  · split at h
    · rename_i r2 heq1
      split at h
      · exact absurd h (by simp)
      · rename_i h2
        split at h
        · rename_i r4 heq2
          split at h
          · exact absurd h (by simp)
          · injection h with h
            refine ⟨r4.dropWhile Char.isDigit, ?_⟩
            conv_lhs => rw [← List.takeWhile_append_dropWhile (p := Char.isDigit) (l := l)]
            rw [heq1]
            conv_lhs => rw [← List.takeWhile_append_dropWhile (p := Char.isDigit) (l := r2)]
            rw [heq2]
            conv_lhs => rw [← List.takeWhile_append_dropWhile (p := Char.isDigit) (l := r4)]
            rw [← h]
            simp
        · exact absurd h (by simp)
    · exact absurd h (by simp)

lemma versionTokenFind_parts : ∀ (l tok : List Char),
    versionTokenFind l = some tok → ∃ s rest, l = s ++ (tok ++ rest) := by
  intro l
  induction l with
  | nil => intro tok h; simp [versionTokenFind] at h
  | cons c t ih =>
    intro tok h
    unfold versionTokenFind at h
    split at h
    · rename_i tok2 hat
      injection h with h
      obtain ⟨rest, hr⟩ := versionTokenAt_front (c :: t) tok2 hat
      exact ⟨[], rest, by rw [hr, h]; simp⟩
    · obtain ⟨s, rest, hr⟩ := ih tok h
      exact ⟨c :: s, rest, by rw [hr]; simp⟩

lemma isPrefixOfB_append_self : ∀ (p r : List Char), isPrefixOfB p (p ++ r) = true := by
  intro p
  induction p with
  | nil => intro r; rfl
  | cons a as ih =>
    intro r
    simp only [List.cons_append, isPrefixOfB, beq_self_eq_true, Bool.true_and]
    exact ih r

lemma containsList_parts : ∀ (s pat rest : List Char),
    containsList pat (s ++ (pat ++ rest)) = true := by
  intro s
  induction s with
  | nil =>
    intro pat rest
    cases pat with
    | nil => cases rest <;> simp [containsList, isPrefixOfB]
    | cons a as =>
      show (isPrefixOfB (a :: as) ((a :: as) ++ rest)
        || containsList (a :: as) (as ++ rest)) = true
      rw [isPrefixOfB_append_self (a :: as) rest]
      simp
  | cons c t ih =>
    intro pat rest
    show (isPrefixOfB pat (c :: (t ++ (pat ++ rest)))
      || containsList pat (t ++ (pat ++ rest))) = true
    rw [ih pat rest]
    simp

lemma extractVersionToken_contains (d v : String)
    (h : extractVersionToken d = some v) : containsSubstr d v = true := by
  unfold extractVersionToken at h
  cases hf : versionTokenFind d.toList with
  | none => rw [hf] at h; simp at h
  | some tok =>
    rw [hf] at h
    simp at h
    obtain ⟨s, rest, hr⟩ := versionTokenFind_parts d.toList tok hf
    unfold containsSubstr
    rw [← h]
    show containsList tok d.toList = true
    rw [hr]
    exact containsList_parts s tok rest

/-- A build-tools listing where the first directory name contains the
maximum satisfying version token of another entry as a substring while its
own extracted token lies outside the required range. -/
def envBuildToolsTricky : Env :=
  { envBase with
    androidHome := some "/sdk"
    fsExists := fun p => p == "/sdk/build-tools"
    readDir := fun p => if p == "/sdk/build-tools" then ["1.25.0.1", "25.0.1"] else [] }

/-- Claim C5, counterexample.  `getBuildToolsVersion` returns the
subdirectory `1.25.0.1`, whose extracted version token is `1.25.0` — not in
the range and not the maximum satisfying version (`25.0.1`, extracted from
the other subdirectory): the final lookup selects the first name merely
containing the maximum as a substring. -/
theorem buildTools_substring_selection_counterexample :
    getBuildToolsVersion envBuildToolsTricky = some "1.25.0.1"
    ∧ extractVersionToken "1.25.0.1" = some "1.25.0"
    ∧ extractVersionToken "25.0.1" = some "25.0.1"
    ∧ maxSatisfying ["1.25.0", "25.0.1"] (buildToolsSat getMaxSupportedVersion)
        = some "25.0.1"
    ∧ buildToolsSat getMaxSupportedVersion (1, 25, 0) = false := by
  refine ⟨rfl, rfl, rfl, rfl, rfl⟩

/-- Claim C5, amended: build-tools resolution extracts a version token from
each subdirectory name and computes the maximum extracted token satisfying
`>=23 <=25` (25 being the numeric suffix of the highest supported target);
on success it returns the first subdirectory name in the listing that
contains that maximum as a substring (not necessarily the subdirectory the
maximum was extracted from), and it returns absence exactly when no
extracted token satisfies the range. -/
theorem buildTools_resolution_amended :
    getMaxSupportedVersion = 25
    ∧ (∀ (L : List String) (sat : VersionTriple → Bool) (v : String),
        maxSatisfying L sat = some v →
          v ∈ L ∧ ∃ t, semverParse v = some t ∧ sat t = true
            ∧ ∀ w tw, w ∈ L → semverParse w = some tw → sat tw = true →
                versionLtB t tw = false)
    ∧ (∀ (env : Env) (h : String), env.androidHome = some h → h ≠ "" →
        env.fsExists (pathJoin h "build-tools") = true →
        (∀ d, getBuildToolsVersion env = some d →
            ∃ v, maxSatisfying ((env.readDir (pathJoin h "build-tools")).filterMap
                  extractVersionToken) (buildToolsSat getMaxSupportedVersion) = some v
              ∧ containsSubstr d v = true
              ∧ ∃ pre post, env.readDir (pathJoin h "build-tools") = pre ++ d :: post
                  ∧ ∀ d2 ∈ pre, containsSubstr d2 v = false)
          ∧ (getBuildToolsVersion env = none ↔
              maxSatisfying ((env.readDir (pathJoin h "build-tools")).filterMap
                extractVersionToken) (buildToolsSat getMaxSupportedVersion) = none)) := by
  refine ⟨by decide, ?_, ?_⟩
  · intro L sat v h
    exact maxSatisfying_spec L sat v h
  · intro env h h1 h2 h3
    have hunf : getBuildToolsVersion env
        = getMatchingDir env (pathJoin h "build-tools") (buildToolsSat getMaxSupportedVersion) := by
      unfold getBuildToolsVersion
      rw [h1]
      simp [h2]
    rw [hunf]
    unfold getMatchingDir
    rw [h3]
    simp only [if_true]
    constructor
    · intro d hd
      cases hmax : maxSatisfying ((env.readDir (pathJoin h "build-tools")).filterMap
          extractVersionToken) (buildToolsSat getMaxSupportedVersion) with
      | none => rw [hmax] at hd; simp at hd
      | some v =>
        rw [hmax] at hd
        obtain ⟨hpd, pre, post, hsplit, hpre⟩ := List.find?_eq_some.mp hd
        refine ⟨v, rfl, hpd, pre, post, hsplit, ?_⟩
        intro d2 hd2
        have := hpre d2 hd2
        simpa using this
    · cases hmax : maxSatisfying ((env.readDir (pathJoin h "build-tools")).filterMap
          extractVersionToken) (buildToolsSat getMaxSupportedVersion) with
      | none => simp
      | some v =>
        constructor
        · intro hfind
          exfalso
          have hfind2 : List.find? (fun dir => containsSubstr dir v)
              (env.readDir (pathJoin h "build-tools")) = none := hfind
          obtain ⟨hmem, -⟩ := maxSatisfying_spec _ _ _ hmax
          obtain ⟨d0, hd0, hext⟩ := List.mem_filterMap.mp hmem
          have hc := extractVersionToken_contains d0 v hext
          have hnone := List.find?_eq_none.mp hfind2 d0 hd0
          rw [hc] at hnone
          exact hnone rfl
        · intro hv
          exact absurd hv (by simp)

/-- A conventional build-tools listing. -/
def envBuildToolsPlain : Env :=
  { envBase with
    androidHome := some "/sdk"
    fsExists := fun p => p == "/sdk/build-tools"
    readDir := fun p => if p == "/sdk/build-tools" then ["23.0.1", "23.0.2", "24.0.0"] else [] }

/-- Witness for claim C5 at a concrete machine: the spec example listing
`{23.0.1, 23.0.2, 24.0.0}` resolves to a directory containing the maximum
satisfying version `24.0.0`, and the absence equivalence holds on it. -/
theorem buildTools_resolution_amended_witness :
    ("24.0.0" ∈ ["23.0.1", "23.0.2", "24.0.0"]
      ∧ ∃ t, semverParse "24.0.0" = some t ∧ buildToolsSat getMaxSupportedVersion t = true
        ∧ ∀ w tw, w ∈ ["23.0.1", "23.0.2", "24.0.0"] → semverParse w = some tw →
            buildToolsSat getMaxSupportedVersion tw = true → versionLtB t tw = false)
    ∧ (∃ v, maxSatisfying ((envBuildToolsPlain.readDir
            (pathJoin "/sdk" "build-tools")).filterMap extractVersionToken)
          (buildToolsSat getMaxSupportedVersion) = some v
        ∧ containsSubstr "24.0.0" v = true
        ∧ ∃ pre post, envBuildToolsPlain.readDir (pathJoin "/sdk" "build-tools")
            = pre ++ "24.0.0" :: post
          ∧ ∀ d2 ∈ pre, containsSubstr d2 v = false) :=
  ⟨buildTools_resolution_amended.2.1 ["23.0.1", "23.0.2", "24.0.0"]
      (buildToolsSat getMaxSupportedVersion) "24.0.0" rfl,
   (buildTools_resolution_amended.2.2 envBuildToolsPlain "/sdk" rfl (by decide) rfl).1
      "24.0.0" rfl⟩

/-! ### Claim C3 -/

/-- The fixed order in which `getWarnings` can emit its warnings. -/
def canonicalWarningOrder : List WarningKind :=
  [.adb, .androidSdk, .xcode, .xcodeprojGem, .cocoaPods, .cocoaPodsNotWorking,
   .cocoaPodsOld, .mono, .iosNote, .itunes, .java, .git]

/-- The warnings of the host-family-gated iOS subsequence together with the
informational note that replaces it. -/
def isIosSubsequenceWarning : WarningKind → Bool
  | .xcode => true
  | .xcodeprojGem => true
  | .cocoaPods => true
  | .cocoaPodsNotWorking => true
  | .cocoaPodsOld => true
  | .mono => true
  | .iosNote => true
  | _ => false

lemma sublist_ite_nil {k : WarningKind} (c : Bool) :
    (if c then ([] : List WarningKind) else [k]).Sublist [k] := by
  cases c <;> simp

lemma sublist_ite_nil2 {k : WarningKind} (c : Bool) :
    (if c then [k] else ([] : List WarningKind)).Sublist [k] := by
  cases c <;> simp

lemma filter_ite_none (k : WarningKind) (c : Bool)
    (hk : isIosSubsequenceWarning k = false) :
    (if c then ([] : List WarningKind) else [k]).filter isIosSubsequenceWarning = [] := by
  cases c <;> simp [hk]

lemma podsCheckPart_out (env : Env) (st : SysInfoState) (d : SysInfoData)
    (w6 : List WarningKind) (st2 : SysInfoState) (l2 : List ProbeId)
    (h : podsCheckPart env st d = ⟨.ok w6, st2, l2⟩) :
    w6 = [] ∨ w6 = [WarningKind.cocoaPodsNotWorking] := by
  unfold podsCheckPart at h
  split at h
  · rcases hi : isCocoaPodsWorkingCorrectly env st with ⟨o, st3, l3⟩
    rw [hi] at h
    cases o with
    | error e =>
      rw [PR.bind_mk_err] at h
      simp at h
    | ok v =>
      rw [PR.bind_mk_ok] at h
      have := congrArg PR.out h
      simp only at this
      injection this with this
      cases hb : optBoolTruthy v <;> rw [hb] at this <;> simp at this <;> simp [← this]
  · have := congrArg PR.out h
    simp only at this
    injection this with this
    exact Or.inl this.symm

lemma monoCheckE_ok (d : SysInfoData) (w8 : List WarningKind)
    (h : monoCheckE d = .ok w8) : w8 = [] ∨ w8 = [WarningKind.mono] := by
  unfold monoCheckE at h
  split at h
  · split at h
    · exact absurd h (by simp)
    · rename_i b hb
      injection h with h
      cases b <;> simp at h <;> simp [← h]
  · injection h with h
    exact Or.inr h.symm

lemma darwinBlock_out (env : Env) (st : SysInfoState) (d : SysInfoData)
    (w : List WarningKind) (st2 : SysInfoState) (l2 : List ProbeId)
    (h : darwinBlock env st d = ⟨.ok w, st2, l2⟩) :
    ∃ w3 w4 w5 w6 w7 w8, w = w3 ++ w4 ++ w5 ++ w6 ++ w7 ++ w8
      ∧ w3.Sublist [WarningKind.xcode]
      ∧ w4.Sublist [WarningKind.xcodeprojGem]
      ∧ w5.Sublist [WarningKind.cocoaPods]
      ∧ w6.Sublist [WarningKind.cocoaPodsNotWorking]
      ∧ w7.Sublist [WarningKind.cocoaPodsOld]
      ∧ w8.Sublist [WarningKind.mono] := by
  unfold darwinBlock at h
  rcases hpc : podsCheckPart env st d with ⟨o6, st6, l6⟩
  rw [hpc] at h
  cases o6 with
  | error e =>
    rw [PR.bind_mk_err] at h
    simp at h
  | ok w6 =>
    rw [PR.bind_mk_ok] at h
    dsimp only at h
    cases hm : monoCheckE d with
    | error e =>
      rw [hm] at h
      simp at h
    | ok w8 =>
      rw [hm] at h
      have hout := congrArg PR.out h
      simp only at hout
      injection hout with hout
      refine ⟨_, _, _, w6, _, w8, hout.symm, sublist_ite_nil _, sublist_ite_nil _,
        sublist_ite_nil _, ?_, sublist_ite_nil2 _, ?_⟩
      · rcases podsCheckPart_out env st d w6 st6 l6 hpc with h6 | h6 <;> simp [h6]
      · rcases monoCheckE_ok d w8 hm with h8 | h8 <;> simp [h8]

/-- Claim C3: `getWarnings` emits its warnings in one fixed relative order
(debug bridge, Android SDK, the Darwin-gated iOS subsequence — Xcode,
xcodeproj gem, CocoaPods presence, CocoaPods functional check, CocoaPods
minimum version, Mono — then iTunes, JDK, Git), and on a non-Darwin host
the entire iOS subsequence is replaced by exactly one informational note
regardless of how many of its sub-checks would otherwise fail. -/
theorem getWarnings_order_and_gating (env : Env) (st : SysInfoState)
    (ws : List WarningKind) (h : (getWarnings env st).out = .ok ws) :
    ws.Sublist canonicalWarningOrder
    ∧ (env.host ≠ .darwin →
        ws.filter isIosSubsequenceWarning = [WarningKind.iosNote]) := by
  unfold getWarnings at h
  rcases hs : getSysInfo env st with ⟨o1, st1, l1⟩
  rw [hs] at h
  cases o1 with
  | error e =>
    rw [PR.bind_mk_err] at h
    simp at h
  | ok dOpt =>
    rw [PR.bind_mk_ok] at h
    cases dOpt with
    | none => simp at h
    | some d =>
      dsimp only at h
      cases hd : (env.host == HostOs.darwin) with
      | true =>
        rw [hd] at h
        simp only [if_true] at h
        rcases hdb : darwinBlock env st1 d with ⟨o2, st2, l2⟩
        rw [hdb] at h
        cases o2 with
        | error e =>
          rw [PR.bind_mk_err] at h
          simp at h
        | ok wMid =>
          rw [PR.bind_mk_ok] at h
          dsimp only at h
          injection h with h
          obtain ⟨w3, w4, w5, w6, w7, w8, hw, s3, s4, s5, s6, s7, s8⟩ :=
            darwinBlock_out env st1 d wMid st2 l2 hdb
          constructor
          · rw [← h, hw]
            have smid6 : (w3 ++ w4 ++ w5 ++ w6 ++ w7 ++ w8).Sublist
                ([WarningKind.xcode] ++ [WarningKind.xcodeprojGem]
                  ++ [WarningKind.cocoaPods] ++ [WarningKind.cocoaPodsNotWorking]
                  ++ [WarningKind.cocoaPodsOld] ++ [WarningKind.mono]) :=
              ((((s3.append s4).append s5).append s6).append s7).append s8
            have smid : (w3 ++ w4 ++ w5 ++ w6 ++ w7 ++ w8).Sublist
                [WarningKind.xcode, WarningKind.xcodeprojGem, WarningKind.cocoaPods,
                 WarningKind.cocoaPodsNotWorking, WarningKind.cocoaPodsOld,
                 WarningKind.mono, WarningKind.iosNote] :=
              smid6.trans (List.sublist_append_left _ [WarningKind.iosNote])
            exact (((((sublist_ite_nil _).append (sublist_ite_nil _)).append
              smid).append (sublist_ite_nil _)).append
                (sublist_ite_nil _)).append (sublist_ite_nil _)
          · intro hne
            exact absurd (eq_of_beq hd) hne
      | false =>
        rw [hd] at h
        simp only [Bool.false_eq_true, if_false] at h
        rw [PR.bind_mk_ok] at h
        dsimp only at h
        injection h with h
        constructor
        · rw [← h]
          have smid : ([WarningKind.iosNote] : List WarningKind).Sublist
              [WarningKind.xcode, WarningKind.xcodeprojGem, WarningKind.cocoaPods,
               WarningKind.cocoaPodsNotWorking, WarningKind.cocoaPodsOld,
               WarningKind.mono, WarningKind.iosNote] :=
            List.sublist_append_right
              [WarningKind.xcode, WarningKind.xcodeprojGem, WarningKind.cocoaPods,
               WarningKind.cocoaPodsNotWorking, WarningKind.cocoaPodsOld,
               WarningKind.mono] [WarningKind.iosNote]
          exact (((((sublist_ite_nil _).append (sublist_ite_nil _)).append
            smid).append (sublist_ite_nil _)).append
              (sublist_ite_nil _)).append (sublist_ite_nil _)
        · intro _
          rw [← h]
          simp only [List.filter_append]
          rw [filter_ite_none WarningKind.adb _ rfl,
            filter_ite_none WarningKind.androidSdk _ rfl,
            filter_ite_none WarningKind.itunes _ rfl,
            filter_ite_none WarningKind.java _ rfl,
            filter_ite_none WarningKind.git _ rfl]
          rfl

/-- Witness for claim C3 at a concrete non-Darwin machine with every tool
absent: the emitted list respects the canonical order and carries exactly
one iOS-related entry, the informational note. -/
theorem getWarnings_order_and_gating_witness :
    ([WarningKind.adb, WarningKind.androidSdk, WarningKind.iosNote, WarningKind.itunes,
      WarningKind.java, WarningKind.git].Sublist canonicalWarningOrder)
    ∧ (envBase.host ≠ .darwin →
        [WarningKind.adb, WarningKind.androidSdk, WarningKind.iosNote, WarningKind.itunes,
         WarningKind.java, WarningKind.git].filter isIosSubsequenceWarning
          = [WarningKind.iosNote]) :=
  getWarnings_order_and_gating envBase initialSysInfoState
    [WarningKind.adb, WarningKind.androidSdk, WarningKind.iosNote, WarningKind.itunes,
     WarningKind.java, WarningKind.git] rfl

/-! ### Claim C8 -/

lemma podsCheckPart_dead (env : Env) (s : SysInfoState) (d : SysInfoData) :
    podsCheckPart env s d = ⟨.ok [], s, []⟩ := by
  unfold podsCheckPart
  rw [show optStrTruthy d.cocoapodVer = false from rfl, Bool.and_false]
  rfl

lemma darwinBlock_frame (env : Env) (s : SysInfoState) (d : SysInfoData) :
    ∃ o, darwinBlock env s d = ⟨o, s, []⟩ := by
  unfold darwinBlock
  rw [podsCheckPart_dead env s d, PR.bind_mk_ok]
  dsimp only
  cases hm : monoCheckE d with
  | error e => exact ⟨.error e, rfl⟩
  | ok w8 => exact ⟨_, rfl⟩

lemma warningsMid_frame (env : Env) (s : SysInfoState) (d : SysInfoData) :
    ∃ o, ((if env.host == HostOs.darwin then darwinBlock env s d
      else ⟨.ok [WarningKind.iosNote], s, []⟩) : PR (List WarningKind)) = ⟨o, s, []⟩ := by
  cases hd : (env.host == HostOs.darwin) with
  | true =>
    simp only [if_true]
    exact darwinBlock_frame env s d
  | false =>
    simp only [Bool.false_eq_true, if_false]
    exact ⟨_, rfl⟩

/-- Claim C8, counterexample.  Within a single `getWarnings` evaluation
with caching enabled and a fresh state, the CocoaPods version detection
strategy executes twice: `getSysInfo` consults the probe once for the
`cocoaPodsVer` snapshot field and a second time inside `getXcprojInfo`
(reached through `isCocoaPodsUpdateRequired`), and the absent result
recorded by the first consultation is stored as `null`, which the cache
test does not recognise. -/
theorem podsVersion_double_execution_counterexample :
    initialSysInfoState.shouldCache = true
    ∧ ((getWarnings envBase initialSysInfoState).log).count ProbeId.cocoapods = 2 :=
  ⟨rfl, rfl⟩

/-- Claim C8, amended: every check of one `getWarnings` evaluation reads
the single snapshot built by `getSysInfo` at the start of the call, and
the warning logic itself runs no probe and changes no probe state — its
sole apparent re-invocation, the CocoaPods functional check, is dead
because its guard reads the never-assigned `cocoapodVer` property.  Within
the snapshot build, however, a probe whose first consultation records the
null marker can run again (the CocoaPods version probe is consulted twice,
so at-most-once per evaluation holds only for present-valued probes). -/
theorem snapshot_consistency_amended (env : Env) (st : SysInfoState) :
    (∀ (d : SysInfoData) (s : SysInfoState), podsCheckPart env s d = ⟨.ok [], s, []⟩)
    ∧ (getWarnings env st).log = (getSysInfo env st).log
    ∧ (getWarnings env st).st = (getSysInfo env st).st := by
  refine ⟨fun d s => podsCheckPart_dead env s d, ?_⟩
  unfold getWarnings
  rcases hs : getSysInfo env st with ⟨o1, st1, l1⟩
  cases o1 with
  | error e =>
    rw [PR.bind_mk_err]
    exact ⟨rfl, rfl⟩
  | ok dOpt =>
    rw [PR.bind_mk_ok]
    dsimp only
    cases dOpt with
    | none => exact ⟨by simp, rfl⟩
    | some d =>
      dsimp only
      obtain ⟨o2, hmid⟩ := warningsMid_frame env st1 d
      rw [hmid]
      cases o2 with
      | error e =>
        rw [PR.bind_mk_err]
        exact ⟨by simp, rfl⟩
      | ok wMid =>
        rw [PR.bind_mk_ok]
        dsimp only
        exact ⟨by simp, rfl⟩

/-- Witness for claim C8 at the bare Linux machine: the warning logic of
that `getWarnings` call executed exactly the strategies the snapshot build
executed. -/
theorem snapshot_consistency_amended_witness :
    (getWarnings envBase initialSysInfoState).log
      = (getSysInfo envBase initialSysInfoState).log :=
  (snapshot_consistency_amended envBase initialSysInfoState).2.1

end NsDoctor
